import Mathlib

/-!
Shallow embedding of the apollo-ii chess engine core (Go) in Lean 4.

Conventions of the embedding:
* Go `uint64` bitboards are `Nat` values kept below `2 ^ 64`; Go's shift
  semantics (a shift count of 64 or more yields 0 on a `uint64`) are
  modelled by reducing shifted values modulo `2 ^ 64`.
* Go `uint8` squares are `Nat` values; conversions from signed arithmetic
  (as in `Square.Towards`) are taken modulo 256, matching Go's wrap-around
  integer conversion.
* Fallible Go code is modelled with `GoRes`: `GoRes.err` models an `error`
  return value (recoverable), `GoRes.panicked` models a Go `panic`
  (an unrecoverable fault).
-/

namespace Apollo

/-- Result of a Go computation: a normal value, a returned `error` value
(recoverable by the caller), or a `panic` (an unrecoverable fault). -/
inductive GoRes (α : Type) where
  | ok : α → GoRes α
  | err : String → GoRes α
  | panicked : String → GoRes α
deriving Repr, DecidableEq

def GoRes.bind {α β : Type} : GoRes α → (α → GoRes β) → GoRes β
  | .ok a, f => f a
  | .err m, _ => .err m
  | .panicked m, _ => .panicked m

instance : Monad GoRes where
  pure := GoRes.ok
  bind := GoRes.bind

/-- True iff the computation returned an `error` value (Go's recoverable
error-return path). -/
def GoRes.isErr {α : Type} : GoRes α → Bool
  | .err _ => true
  | _ => false

/-- True iff the computation panicked (Go's unrecoverable fault path). -/
def GoRes.isPanic {α : Type} : GoRes α → Bool
  | .panicked _ => true
  | _ => false

def GoRes.isOk {α : Type} : GoRes α → Bool
  | .ok _ => true
  | _ => false

def GoRes.getD {α : Type} : GoRes α → α → α
  | .ok a, _ => a
  | _, d => d

/-! ## Bitboards (bitboard.go) -/

def two64 : Nat := 2 ^ 64

def mask64 : Nat := two64 - 1

/-- The single-bit mask Go computes as `uint64(1) << square`: for a shift
count of 64 or more a Go `uint64` shift yields 0, which the reduction
modulo `2 ^ 64` reproduces. -/
def bbBit (square : Nat) : Nat := (1 <<< square) % two64

/-- Bitboard.Test: membership test of a square in a bitboard. -/
def bbTest (b square : Nat) : Bool := b &&& bbBit square != 0

/-- Bitboard.Set: set a square in a bitboard. -/
def bbSet (b square : Nat) : Nat := b ||| bbBit square

/-- Bitboard.Unset: clear a square in a bitboard (Go masks with the
complement of the bit inside a `uint64`). -/
def bbUnset (b square : Nat) : Nat := b &&& (mask64 ^^^ bbBit square)

/-- Trailing-zero count of a nonzero word of at most 2 bits. -/
def tz2 (b : Nat) : Nat := if b &&& 1 = 0 then 1 else 0

/-- Trailing-zero count of a nonzero word of at most 4 bits. -/
def tz4 (b : Nat) : Nat := if b &&& 3 = 0 then 2 + tz2 (b >>> 2) else tz2 b

/-- Trailing-zero count of a nonzero word of at most 8 bits. -/
def tz8 (b : Nat) : Nat := if b &&& 15 = 0 then 4 + tz4 (b >>> 4) else tz4 b

/-- Trailing-zero count of a nonzero word of at most 16 bits. -/
def tz16 (b : Nat) : Nat := if b &&& 255 = 0 then 8 + tz8 (b >>> 8) else tz8 b

/-- Trailing-zero count of a nonzero word of at most 32 bits. -/
def tz32 (b : Nat) : Nat := if b &&& 65535 = 0 then 16 + tz16 (b >>> 16) else tz16 b

/-- bits.TrailingZeros64 for nonzero inputs below `2 ^ 64`: index of the
lowest set bit, computed by binary narrowing. -/
def tz64 (b : Nat) : Nat := if b &&& 4294967295 = 0 then 32 + tz32 (b >>> 32) else tz32 b

/-- Highest-set-bit index of a nonzero word of at most 2 bits. -/
def msb2 (b : Nat) : Nat := if b >>> 1 != 0 then 1 else 0

/-- Highest-set-bit index of a nonzero word of at most 4 bits. -/
def msb4 (b : Nat) : Nat := if b >>> 2 != 0 then 2 + msb2 (b >>> 2) else msb2 b

/-- Highest-set-bit index of a nonzero word of at most 8 bits. -/
def msb8 (b : Nat) : Nat := if b >>> 4 != 0 then 4 + msb4 (b >>> 4) else msb4 b

/-- Highest-set-bit index of a nonzero word of at most 16 bits. -/
def msb16 (b : Nat) : Nat := if b >>> 8 != 0 then 8 + msb8 (b >>> 8) else msb8 b

/-- Highest-set-bit index of a nonzero word of at most 32 bits. -/
def msb32 (b : Nat) : Nat := if b >>> 16 != 0 then 16 + msb16 (b >>> 16) else msb16 b

/-- The value Go computes as `63 - bits.LeadingZeros64(b)` for nonzero `b`
below `2 ^ 64`: the index of the highest set bit. (On 0 Go would produce
-1 and fault on the subsequent table index; all call sites guard
against 0.) -/
def msb64 (b : Nat) : Nat := if b >>> 32 != 0 then 32 + msb32 (b >>> 32) else msb32 b

/-- Bitboard.Count, i.e. bits.OnesCount64 for values below `2 ^ 64`,
computed by the usual parallel sideways addition. -/
def bbCount (b : Nat) : Nat :=
  let b := b - ((b >>> 1) &&& 0x5555555555555555)
  let b := (b &&& 0x3333333333333333) + ((b >>> 2) &&& 0x3333333333333333)
  let b := (b + (b >>> 4)) &&& 0x0F0F0F0F0F0F0F0F
  ((b * 0x0101010101010101) % two64) >>> 56

/-- BitboardIterator.Next: yields the lowest set square and the bitboard
with that square cleared (Go clears it with `b &= b - 1`). -/
def iterNext (b : Nat) : Option (Nat × Nat) :=
  if b = 0 then none else some (tz64 b, b &&& (b - 1))

def bbListAux : Nat → Nat → List Nat
  | 0, _ => []
  | fuel + 1, b =>
    match iterNext b with
    | none => []
    | some (sq, b') => sq :: bbListAux fuel b'

/-- The ascending list of set squares of a bitboard, as produced by
repeatedly calling BitboardIterator.Next (64 steps of fuel always
suffice for values below `2 ^ 64`). -/
def bbList (b : Nat) : List Nat := bbListAux 64 b

/-- A Go-style loop over a bitboard iterator: repeatedly draw the next
square with BitboardIterator.Next and feed it to the loop body, folding an
accumulator. 64 steps of fuel always suffice for boards below `2 ^ 64`. -/
def iterFold {alpha : Type} (f : alpha -> Nat -> alpha) : Nat -> Nat -> alpha -> alpha
  | 0, _, acc => acc
  | fuel + 1, b, acc =>
    match iterNext b with
    | none => acc
    | some (sq, b2) => iterFold f fuel b2 (f acc sq)

/-- rankMasks from bitboard.go (indexing outside 0-7 would fault in Go and
is never reached by callers). -/
def rankMask : Nat → Nat
  | 0 => 0x00000000000000FF
  | 1 => 0x000000000000FF00
  | 2 => 0x0000000000FF0000
  | 3 => 0x00000000FF000000
  | 4 => 0x000000FF00000000
  | 5 => 0x0000FF0000000000
  | 6 => 0x00FF000000000000
  | 7 => 0xFF00000000000000
  | _ => 0

/-- fileMasks from bitboard.go. -/
def fileMask : Nat → Nat
  | 0 => 0x0101010101010101
  | 1 => 0x0202020202020202
  | 2 => 0x0404040404040404
  | 3 => 0x0808080808080808
  | 4 => 0x1010101010101010
  | 5 => 0x2020202020202020
  | 6 => 0x4040404040404040
  | 7 => 0x8080808080808080
  | _ => 0

def FullBitboard : Nat := 0xFFFFFFFFFFFFFFFF

/-! ## Coordinates and directions (types.go) -/

inductive Color where
  | white
  | black
deriving Repr, DecidableEq

def Color.toggle : Color → Color
  | .white => .black
  | .black => .white

inductive PieceKind where
  | pawn
  | knight
  | bishop
  | rook
  | queen
  | king
deriving Repr, DecidableEq

structure Piece where
  kind : PieceKind
  color : Color
deriving Repr, DecidableEq

inductive Direction where
  | north
  | northEast
  | east
  | southEast
  | south
  | southWest
  | west
  | northWest
deriving Repr, DecidableEq

/-- Direction.AsVector as written in the source: its switch has no case for
SouthEast, so that direction falls through to a panic ("unknown
direction"), modelled here as `none`. -/
def asVectorGo : Direction → Option Int
  | .north => some 8
  | .northEast => some 9
  | .east => some 1
  | .south => some (-8)
  | .southWest => some (-9)
  | .west => some (-1)
  | .northWest => some 7
  | .southEast => none

/-- Modelled from the spec: the SouthEast case of Direction.AsVector is
missing from the source (the switch panics on it). The spec requires
Direction to be one of eight cardinal/diagonal unit vectors; with
South = -8 and East = +1 the SouthEast unit offset is -7. All other cases
are the source's values. Definitions downstream of ray and king table
construction use this total vector so that they are well-defined. -/
def asVector : Direction → Int
  | .north => 8
  | .northEast => 9
  | .east => 1
  | .southEast => -7
  | .south => -8
  | .southWest => -9
  | .west => -1
  | .northWest => 7

/-- Square.Towards with the total vector: Go converts the signed sum back
to a `uint8`, i.e. reduces it modulo 256. -/
def towards (s : Nat) (d : Direction) : Nat := ((Int.ofNat s + asVector d) % 256).toNat

/-- Square.Towards exactly as in the source: faults (returns `none`) for
SouthEast because Direction.AsVector has no case for it. -/
def towardsGo (s : Nat) (d : Direction) : Option Nat :=
  (asVectorGo d).map (fun v => ((Int.ofNat s + v) % 256).toNat)

/-- Square.Rank: the square's rank (squares are uint8 values, always below
256 in this embedding). -/
def squareRank (s : Nat) : Nat := (s % 256) >>> 3

/-- Square.File. -/
def squareFile (s : Nat) : Nat := s &&& 7

/-- MakeSquare: rank * 8 + file, truncated to uint8. -/
def MakeSquare (rank file : Nat) : Nat := (rank * 8 + file) % 256

/-! ## Attack tables (attacks.go) -/

/-- The edge bitboard initializeRays passes to populateDirection for each
direction. -/
def rayEdge : Direction → Nat
  | .north => rankMask 7
  | .northEast => rankMask 7 ||| fileMask 7
  | .east => fileMask 7
  | .southEast => rankMask 0 ||| fileMask 7
  | .south => rankMask 0
  | .southWest => rankMask 0 ||| fileMask 0
  | .west => fileMask 0
  | .northWest => rankMask 7 ||| fileMask 0

def rayWalk (edge : Nat) (d : Direction) : Nat → Nat → Nat → Nat
  | 0, _, acc => acc
  | fuel + 1, cursor, acc =>
    let c := towards cursor d
    let acc' := bbSet acc c
    if bbTest edge c then acc' else rayWalk edge d fuel c acc'

/-- populateDirection (with the total direction vector): the maximal
unobstructed ray from a square towards the board edge. A board crossing
takes at most 7 steps, so 8 steps of fuel always suffice. -/
def populateDirection (square : Nat) (d : Direction) : Nat :=
  if bbTest (rayEdge d) square then 0 else rayWalk (rayEdge d) d 8 square 0


def rayWalkGo (edge : Nat) (d : Direction) : Nat → Nat → Nat → Option Nat
  | 0, _, _ => none
  | fuel + 1, cursor, acc =>
    match towardsGo cursor d with
    | none => none
    | some c =>
      let acc' := bbSet acc c
      if bbTest edge c then some acc' else rayWalkGo edge d fuel c acc'

/-- populateDirection exactly as in the source: the ray cast faults
(returns `none`) whenever Square.Towards faults, which happens for the
SouthEast direction on every non-edge square. -/
def populateDirectionGo (square : Nat) (d : Direction) : Option Nat :=
  if bbTest (rayEdge d) square then some 0 else rayWalkGo (rayEdge d) d 8 square 0

/-- The directions in the order initializeRays casts them for each square. -/
def initializeRaysOrder : List Direction :=
  [.north, .northEast, .east, .southEast, .south, .southWest, .west, .northWest]

/-- Whether initializeRays, run exactly as written, completes without a
fault: every populateDirection call on every square must succeed. -/
def initializeRaysOk : Bool :=
  (List.range 64).all (fun sq => initializeRaysOrder.all (fun d => (populateDirectionGo sq d).isSome))

/-- initializePawns (faithful: the pawn table build uses only the North,
South, East and West vectors, which are present in the source). -/
def pawnTableBuild (sq : Nat) (color : Color) : Nat :=
  let promoRank := if color = .white then rankMask 7 else rankMask 0
  let pawnDirection := if color = .white then Direction.north else Direction.south
  if bbTest promoRank sq then 0
  else
    let b := 0
    let b := if !bbTest (fileMask 0) sq then bbSet b (towards (towards sq pawnDirection) .west) else b
    let b := if !bbTest (fileMask 7) sq then bbSet b (towards (towards sq pawnDirection) .east) else b
    b

/-- initializeKnights (faithful: only the North, South, East and West
vectors are used). -/
def knightTableBuild (sq : Nat) : Nat :=
  let filea := fileMask 0
  let fileb := fileMask 1
  let fileg := fileMask 6
  let fileh := fileMask 7
  let rank1 := rankMask 0
  let rank2 := rankMask 1
  let rank7 := rankMask 6
  let rank8 := rankMask 7
  let b := 0
  let b := if !bbTest filea sq && !bbTest (rank7 ||| rank8) sq then
    bbSet b (towards (towards (towards sq .north) .north) .west) else b
  let b := if !bbTest fileh sq && !bbTest (rank7 ||| rank8) sq then
    bbSet b (towards (towards (towards sq .north) .north) .east) else b
  let b := if !bbTest (fileg ||| fileh) sq && !bbTest rank8 sq then
    bbSet b (towards (towards (towards sq .north) .east) .east) else b
  let b := if !bbTest (fileg ||| fileh) sq && !bbTest rank1 sq then
    bbSet b (towards (towards (towards sq .south) .east) .east) else b
  let b := if !bbTest fileh sq && !bbTest (rank1 ||| rank2) sq then
    bbSet b (towards (towards (towards sq .south) .south) .east) else b
  let b := if !bbTest filea sq && !bbTest (rank1 ||| rank2) sq then
    bbSet b (towards (towards (towards sq .south) .south) .west) else b
  let b := if !bbTest (filea ||| fileb) sq && !bbTest rank1 sq then
    bbSet b (towards (towards (towards sq .south) .west) .west) else b
  let b := if !bbTest (filea ||| fileb) sq && !bbTest rank8 sq then
    bbSet b (towards (towards (towards sq .north) .west) .west) else b
  b

/-- initializeKings. Note that the source's king table build calls
Square.Towards with NorthWest, NorthEast, SouthWest and SouthEast; the
SouthEast call would fault in the source (see Direction.AsVector), so this
table, like the ray table, is only well-defined with the total vector. -/
def kingTableBuild (sq : Nat) : Nat :=
  let filea := fileMask 0
  let fileh := fileMask 7
  let rank1 := rankMask 0
  let rank8 := rankMask 7
  let b := 0
  let b := if !bbTest rank8 sq then
    let b := bbSet b (towards sq .north)
    let b := if !bbTest filea sq then bbSet b (towards sq .northWest) else b
    if !bbTest fileh sq then bbSet b (towards sq .northEast) else b
  else b
  let b := if !bbTest rank1 sq then
    let b := bbSet b (towards sq .south)
    let b := if !bbTest filea sq then bbSet b (towards sq .southWest) else b
    if !bbTest fileh sq then bbSet b (towards sq .southEast) else b
  else b
  let b := if !bbTest filea sq then bbSet b (towards sq .west) else b
  let b := if !bbTest fileh sq then bbSet b (towards sq .east) else b
  b

/-- The 64-entry ray table for each direction, as initializeRays
materializes it, packed into a single numeral with entry sq at bit
offset 64 * sq. The theorem rayTable_build below checks every entry
against populateDirection. -/
def rayTablePacked : Direction → Nat
  | .north => 38947040667281689383310015378538001764698135463371523459206000656292916333210645379146484052140904581074341816516878696810804559304482979175338404103803922560401511175492923435024172581684911646169055554265620637872375925126877019029006910295375813129422619963975065031857864468068943232762127067575381130679380151905931394878848370247042163252615399162124822194531243694897953959918229966610936957119451232877491967199448162971904637563684624325838541703708741188804819779328932691834574686289296678943551612377858849106677563637744842734898969382222711434569125511419222312385034008573635215175855786670416176065806717740860469157921163179125775681386109166416847555648062799688707784613919232954348058514303181118406800383851416630388813426189982497673112506286576497965656883732715037268059936510315441366045980603428557459941631114981792015090628178339701386203727009256438564845381232586632618611367551086849690653775286674535719735603907613268213856110531615015914609472658613458716069677053351835611194120130356247588837248845959688629142333461544919755708601859265593600
  | .northEast => 2111323305167404895032395134196940697420720340540742553277534510942140050607286387744517726759377447829114201060655384287428966563525909391324616015484483905815579891498870265333479335666594762342947856163188409987874023759512855081230871127000098891972789118427987235661497362760085503403843890902411918472566697675307413079566177363351228966712518530412168442393432711037101570539716024327271584228315173717236782477831035290668267460336428679102317392304482307890737481462403996978129835117578944376007013444350457535074472045163231243133356917698756543444903291697117520188021655160169091707831360283924741803000947740469638022268799558579106431913837470479068071991634214709668712599420548244170235607799987009092915528878243819131412665617581791509274261468862514415467798482660384225198951048968377232568923374836092323673572016482860747072250525508605504942861743288427526207717589224765747383201426432168434501714781942149564801925693331832175332991564932774101283292164905932393983791514855002533544800988920683257830098444079616466251125475412017664
  | .east => 28308217353696145249217191649726837303262630506725702224674117562350850637635905208738675597916192897771951770525197526975382009120457733308954403204949076945785621901549326980021031414741243640376609277495955962448723283699978488881784325804156039128272450929238851896655238678845602312268421294752413636336303646606308191881008877730459285450159023927368222635836670616119646148202335827343581431512231420767039704850328291694501443486321110868621152006530963810636539565713249548278887465194638524632271907845699346140689710580991782023350055313764200172559392760426936620437370066720365267250664554529741070779695604189374016110925733607481985975472651616887102846438423910504295170697214288213687897002776693960984719571862027731139460296411605709540430438846126972055467917693353567410640748233519132062411444076153808547526167228791204682576729705322380062067129240645480554334078928908235835612646572164729392740683135122980382101587373852416101718281154029990895600363800148050736632864594592825141465444595534354004029991634877317980355308025329273305787534460511240800770878372021773350278862694842849507117571498597524979532195054429871880873813661978405875187227625088358531581634016237754559328420094
  | .southEast => 110578974037875567373783572696162228710268246369993375079981750168656723510359426568448880954555554176227928563064935635402438628925973111636012886533581644541475126862058248836793642594260497256692128021580203842133433777295242678367329955381987751216262881868397775096385662455704273677908947099649369811810060901016045605198665634699514551159803213130650716714242503790925217431971310802931336726763982525222973208248313203735954708054056406402986851323112706560381087430444790126816690104437429073557846205401238137462017792311492233583480224485864782162208946664849271513466590503691514257860951842913226678996650015499652878679882691000633020199989094985475286374647767174782267906661601455915120983081603491479658100155333670093498855412557579798912484555035488836564957016794666706295222232793856639947846380127525615703552727837091839212186436787947805378035847517934647465347542628572503077791964569088071831319665749578232056183391631541341380410418488138788115723904458048336137510069752626648129898184800608580004698238646720018092623977108431187370834296046949762651042127191386252126101335842576949051330948970174875903397564751428612852267577666949892014727586955578769003781273635261199725625344
  | .south => 2047821336104220572992654201917439531400305081967526347201206946666321023534605062310463285137918741584705353343512066274400637846302610331122406963996507968441901417990723248943416900972077612242500638755197184230626288639877359410864363210984272102677918502150751004259958336088177857595299777858693826551078012911854952667860220360231110156576418672063360027917240977560141536990510590867210623960991939993957112163350639412197383554273413725019902635903846525608537575872875701804235833560718917716762735337575497043303210297365288390849549278699234107558988849190321192123901549982159401267340965597112608256257559151136561120609529364734034235263524582007091786214633728301515556114265911060042451733644837742870385858177951523117636672198667192734974049117809780917123605132025548063441467713794526188216929559179605482695982385092353914728628936550632399227239149870840822338407009395531280810558567067086795697803459121620906679404338417605260652259643649695571802307387841742298969990444124786252484945525074763418087511847983264684188634161447238749807634244404776784371911494504126958551656805010871455184684297096471715602160959175509241425739437149930925350208475283827815679353945607473680227169645125148780108185600
  | .southWest => 1021906928975687384155409059349839476779416729137354786864700570586805668738669216642276931366121362281736875498067644902134269892410264974696112889860334708270614862870744658839423074335091186599858858609753963611363771833688447793087294205724879590579228391731606048318848630538495472045419153950385005631169740768034386854273822775320626501353930745314316828106212775390059909092619158733923355374426334009606117257192044799516173958372133796471203139935663298470521735270401712644865810997392798594741949061459114545611167116860341973389591172326593109638468688769899295216028362160295207642522694009589399746823577397174187069976082854058407376793783240667529126836316324739796747510079337792701968192931661261439928862609025206762605033937017939050172856135956467298138569855132720403511310145773142215341652912871937103218916527614985379182958387349902709717455578805075009000368761564842948415833241446213047920520273723672509204124103177793659422105152788753562549472371774308954861608254069879142284908556607108800238238657793271816278483510230610951530966412868864903814923687693295289132127518298401647318370578928456650342834310548395781771708114261936303296339488613786438816647096092618808343474011912050066975621120
  | .west => 518114796638556126380544647060847698784616924420292898730539143827446982520573991179809080140098048320571883179680652027840245677719465871997717747605251407399102929212766104086502415574071204404640108771786059643782008220195514369211981977657665591902091966360405378318503954942036122548115575289335526362450895057819825877359772155198435824810783407454721327734525121927189045726964003028671900412255563549006439108629622866372952509122713318400993871967704625897412711526137085003372445040665071361255651487777942048038650497852106518213171708535922584135058745571855383339285100446741132830779390766675736644849047719525770041366534126193103980799831341886471191247070752188261321690913900128435178115832017401430561734531174190950336811945086544898859625364879787495116654026828893728840008614247361650236271222544430284083255565249856895628128042499260445757442008226211689107700052309665701494636370299496833081555012202488387442438430730412740991581672362339031345875856568133082557893039401978379011256167095077858282130169625081346446270383512142502137839879439986106669120797263054969612475122913741905942536046417123238075836254992791210662011990727031402195663782781250555272873767931239729567105900424683917522476466176
  | .northWest => 19473520333640844691655007689269000882349067731685761729603000328146458166605322689573242026070452290537170908258439348405402279652241489378356086884561619419917717007675860129999897080646898580490217715808025863732409699888576518360751648195965655667745235294947941214641413291556330735175722004755423466855192659539055536198379090608681587702202650917033173984990001198642027241386849312141470338721104411875333912082042409990317844897390667959759455979553323723697343934038821764311231615974239697747477293524339928741186896860207349578408931402695589413064629308163784684602398800085479113963207636113582214526175874305723242790444945349053897218355229503638712689737468316120892006594817837560842011422579809099359994889330678914996764116629742447499756040218643080541551464388794357349664205849426350012506691955236185667061954673040513516946318457283983391830467742538667640858659451666624631735855105568861598421001398140162735159927352158199462330528109272701510742530970920864542797373787903179381802718260097505569560114534330372337711035792032817210253912584906342400

/-- rayTable lookup: the precomputed ray from a square in a direction. -/
def rayTable (square : Nat) (d : Direction) : Nat :=
  (rayTablePacked d >>> (64 * square)) &&& mask64

/-- The knight table, as initializeKnights materializes it, packed like
rayTablePacked and checked by knightTable_build. -/
def knightTablePacked : Nat :=
  513939535912691777675632830011314898194612868029098360788517199561153632360406287452469109921090029698114425320511691469180503624690071133954665309682317447505780739491788685048416700897327620659745902605802696430297961450200268425332944049383185148369223528330439800441197926362238200126652358551104433140497789202355307276162240116430102839360120878296204950686823717631493367403576510439598103059035343160276044408216342803499555101107085528045691350899994579156777018351127119723015753172986895766332197406491253478552711097499909679833419414576282712542406106965384281063637808107231968998742999958036519973142249350932304167305501418470704596678220421902490246580304221474909000167222200763169813152501802161863983313579227611473803372101476770760294741791360951077356762934883557847973079680852337689320494327269472839170065566149946887756665039031904635843323511631451053562729556809490860561307009918991079054605855227952036817493563105358979477217702024037472831578118855801448679925611578237463313179849913088468384479981680546071020278998756413789778820890932323795886748438660975812028136352263239122318622786183510870777191943352166511473301685502175834015151244991679547389588504429729025520828055705008466544428032

def knightTable (square : Nat) : Nat := (knightTablePacked >>> (64 * square)) &&& mask64

/-- The king table, as initializeKings materializes it (see kingTableBuild
for the SouthEast caveat), packed and checked by kingTable_build. -/
def kingTablePacked : Nat :=
  264156953404303221942965456845520169943338131686959457571923483305847700807756015278523080229634291642515512720379625415998002953236261368416231289172962087581631836949632484485374128384042241167767238328839609345999581058902843519220522533010089460509691504134318410705948550815871684624129262584144679450375577516853549321385304640527173977257963981185058145004392430004920757193513662022124161582037751993358113738392556746340778223921459532777419462161470159266292566629421223289735171488785910795161776385657266694147649333362115172351610523231845668460090962715276894573444254369990775232331132268849557724313065912683493668947829856478151951159284505866793138560624849509035187602156442778386411887663101274153823504021964272696893363867973003949169458187179211139044512649965423452258986954306563254194786172624618451824331366376025123799638401059200901742783754479523040980614231175115032572832547924504908033089381101247160924230235416582352026291471553731394765306357524221954697451753155896736924948517990760551476725952332195597056043425041586896526499384433277760923261309259860007430758778948226609719614370898027585215358197905351625343647359059509511991184097756641626351018122181186174494715689259616627757261259522

def kingTable (square : Nat) : Nat := (kingTablePacked >>> (64 * square)) &&& mask64

/-- The pawn capture tables, as initializePawns materializes them, packed
per color and checked by pawnTable_build. -/
def pawnTablePacked : Color → Nat
  | .white => 19473520333640844693766330994436405777381462865882702427023720668687200719882857200515382076677738678281688635017816796234516480712896873665785053448087528085041583601915586158693949554496097669976882159541587443243743628631859713660612328521181344871504483826000444588407753126362270488929972876331724246445713926576280899687124350129344644887038778418124721320026238643655825963159467109305103818989456330140438181252428713358436815996764222244847865593838624259516093945136900240838700435453158815443183892840513613527005246791122399944368098954063000579248072304755680571249250639698127663125045025753830411939025853137586168689652585975002130400098196663151100504695247859028551524471827919169596881288427122095343374213356006830233099758386592927524493860309847246152060652557789940919368804706202721872524252122808545098303387217369128116733047967191466567723745385020676420670769188800230701751565889747131152464866604035939621549746367235880273509054187968525780642907449448694536017431339557361030426227238511314942480657168368622082354319988917073598024901531774484992
  | .black => 1019911017005031744954388474106547957830446532819824865637424702751423942605091129573414096099401157566464148906908757062213082244518632734656167194404760826181748082332986764997008609077906636798488726508565455113635908187465992144139942889910557682545413143509285036977379050008942752814621682131791807852127629111149814609076672369273230500273862846386327288921516473043069399897098558554481923066943455909276212593105950018176901031799139300841412575577857892114676949413939629208627376770295559966939757376552237703283410498027783649080774598445250419503391810684961257845014960588908371952026213072038162040440122009555204125286978735160250069595193182419578403263365457953683689498712930621147266461958734684180502849953524961539245535064975116407601777786309690666445879910359494034220691617338852649554716904884361064769115345466716359792533114885985444691069097498171275121431694439582622700538199296391035709042425762954797738106090200756900136951514405060571161285007935520234085968037400058725262608367755322912322621843073440065484729043256244034037718414165095381568274100862341602354279611600446063590774642418638979910449312360494948896117343503748034958687486237911218437345967181114975298393971231969370410319872

def pawnTable (square : Nat) (color : Color) : Nat :=
  (pawnTablePacked color >>> (64 * square)) &&& mask64

/-- positiveRayAttacks: ray-versus-occupancy resolution finding the first
blocker with the lowest set bit of the intersection. -/
def positiveRayAttacks (square occupancy : Nat) (d : Direction) : Nat :=
  let attacks := rayTable square d
  let blocker := attacks &&& occupancy
  if blocker = 0 then attacks
  else attacks ^^^ rayTable (tz64 blocker) d

/-- negativeRayAttacks: ray-versus-occupancy resolution finding the first
blocker with the highest set bit of the intersection. -/
def negativeRayAttacks (square occupancy : Nat) (d : Direction) : Nat :=
  let attacks := rayTable square d
  let blocker := attacks &&& occupancy
  if blocker = 0 then attacks
  else attacks ^^^ rayTable (msb64 blocker) d

/-- diagonalAttacks: the source resolves NorthWest as the positive ray and
SouthEast as the negative ray. -/
def diagonalAttacks (square occupancy : Nat) : Nat :=
  positiveRayAttacks square occupancy .northWest ||| negativeRayAttacks square occupancy .southEast

def antidiagonalAttacks (square occupancy : Nat) : Nat :=
  positiveRayAttacks square occupancy .northEast ||| negativeRayAttacks square occupancy .southWest

def fileAttacks (square occupancy : Nat) : Nat :=
  positiveRayAttacks square occupancy .north ||| negativeRayAttacks square occupancy .south

def rankAttacks (square occupancy : Nat) : Nat :=
  positiveRayAttacks square occupancy .east ||| negativeRayAttacks square occupancy .west

def BishopAttacks (square occupancy : Nat) : Nat :=
  diagonalAttacks square occupancy ||| antidiagonalAttacks square occupancy

def RookAttacks (square occupancy : Nat) : Nat :=
  rankAttacks square occupancy ||| fileAttacks square occupancy

def QueenAttacks (square occupancy : Nat) : Nat :=
  BishopAttacks square occupancy ||| RookAttacks square occupancy

def KnightAttacks (square : Nat) : Nat := knightTable square

def PawnAttacks (square : Nat) (color : Color) : Nat := pawnTable square color

def KingAttacks (square : Nat) : Nat := kingTable square

/-! ## Move encoding (move.go)

A Move is a Go uint16, modelled as a Nat below 2 ^ 16: 6 bits of source
square, 6 bits of destination square, and a 4-bit attribute nibble
(promotion, capture, special0, special1). -/

def sourceMask : Nat := 0xFC00

def destinationMask : Nat := 0x03F0

def promoBit : Nat := 0x0008

def captureBit : Nat := 0x0004

def special0Bit : Nat := 0x0002

def special1Bit : Nat := 0x0001

def attrMask : Nat := 0x000F

/-- MakeQuietMove: pack source and destination; Go truncates the shifted
uint16 values, reproduced by reduction modulo 2 ^ 16. -/
def MakeQuietMove (source dest : Nat) : Nat :=
  (((source % 256) <<< 10) % 65536) ||| (((dest % 256) <<< 4) % 65536)

def MakeCaptureMove (source dest : Nat) : Nat := MakeQuietMove source dest ||| captureBit

def MakeEnPassantMove (source dest : Nat) : Nat := MakeCaptureMove source dest ||| special1Bit

def MakeDoublePawnPushMove (source dest : Nat) : Nat := MakeQuietMove source dest ||| special1Bit

/-- MakePromotionMove: the Go switch ORs in 0/1/2/3 for
Knight/Bishop/Rook/Queen and adds nothing for other kinds. -/
def MakePromotionMove (source dest : Nat) (piece : PieceKind) : Nat :=
  let mov := MakeQuietMove source dest ||| promoBit
  match piece with
  | .knight => mov ||| 0
  | .bishop => mov ||| 1
  | .rook => mov ||| 2
  | .queen => mov ||| 3
  | _ => mov

def MakePromotionCaptureMove (source dest : Nat) (piece : PieceKind) : Nat :=
  MakePromotionMove source dest piece ||| captureBit

def MakeKingsideCastleMove (source dest : Nat) : Nat := MakeQuietMove source dest ||| special0Bit

def MakeQueensideCastleMove (source dest : Nat) : Nat :=
  MakeQuietMove source dest ||| special0Bit ||| special1Bit

/-- MakeNullMove ignores its arguments and returns the zero encoding. -/
def MakeNullMove (_source _dest : Nat) : Nat := 0

def moveSource (m : Nat) : Nat := (m &&& sourceMask) >>> 10

def moveDestination (m : Nat) : Nat := (m &&& destinationMask) >>> 4

def isQuiet (m : Nat) : Bool := (m &&& attrMask) == 0

def isCapture (m : Nat) : Bool := (m &&& captureBit) != 0

def isEnPassant (m : Nat) : Bool := (m &&& attrMask) == 5

def isDoublePawnPush (m : Nat) : Bool := (m &&& attrMask) == 1

def isPromotion (m : Nat) : Bool := (m &&& promoBit) == promoBit

def isKingsideCastle (m : Nat) : Bool := (m &&& attrMask) == 2

def isQueensideCastle (m : Nat) : Bool := (m &&& attrMask) == 3

def isCastle (m : Nat) : Bool := isKingsideCastle m || isQueensideCastle m

def isNull (m : Nat) : Bool := m == 0

/-- Move.PromotionPiece: panics when called on a non-promotion move. -/
def PromotionPiece (m : Nat) : GoRes PieceKind :=
  if !isPromotion m then .panicked "PromotionPiece called on non-promotion move"
  else
    match m &&& (special0Bit ||| special1Bit) with
    | 0 => .ok .knight
    | 1 => .ok .bishop
    | 2 => .ok .rook
    | 3 => .ok .queen
    | _ => .panicked "unreachable code in PromotionPiece"

/-! ## Position (position.go) -/

/-- Position: the Go struct holds a 2-by-6 array of piece bitboards
(boardsByPiece, first index color, second index piece kind) and a 2-entry
array of color-union bitboards (boardsByColor); both arrays are modelled
as explicit fields, accessed and updated through boardsByPiece /
colorBoard / setPieceBoard / setColorBoard below. -/
structure Position where
  whitePawns : Nat
  whiteKnights : Nat
  whiteBishops : Nat
  whiteRooks : Nat
  whiteQueens : Nat
  whiteKings : Nat
  blackPawns : Nat
  blackKnights : Nat
  blackBishops : Nat
  blackRooks : Nat
  blackQueens : Nat
  blackKings : Nat
  whiteUnion : Nat
  blackUnion : Nat
  enPassantSquare : Nat
  halfmoveClock : Nat
  fullmoveClock : Nat
  sideToMove : Color
  castleStatus : Nat

/-- The boardsByPiece array lookup. -/
def boardsByPiece (p : Position) (c : Color) (k : PieceKind) : Nat :=
  match c, k with
  | .white, .pawn => p.whitePawns
  | .white, .knight => p.whiteKnights
  | .white, .bishop => p.whiteBishops
  | .white, .rook => p.whiteRooks
  | .white, .queen => p.whiteQueens
  | .white, .king => p.whiteKings
  | .black, .pawn => p.blackPawns
  | .black, .knight => p.blackKnights
  | .black, .bishop => p.blackBishops
  | .black, .rook => p.blackRooks
  | .black, .queen => p.blackQueens
  | .black, .king => p.blackKings

/-- The boardsByPiece array store. -/
def setPieceBoard (p : Position) (c : Color) (k : PieceKind) (v : Nat) : Position :=
  match c, k with
  | .white, .pawn => { p with whitePawns := v }
  | .white, .knight => { p with whiteKnights := v }
  | .white, .bishop => { p with whiteBishops := v }
  | .white, .rook => { p with whiteRooks := v }
  | .white, .queen => { p with whiteQueens := v }
  | .white, .king => { p with whiteKings := v }
  | .black, .pawn => { p with blackPawns := v }
  | .black, .knight => { p with blackKnights := v }
  | .black, .bishop => { p with blackBishops := v }
  | .black, .rook => { p with blackRooks := v }
  | .black, .queen => { p with blackQueens := v }
  | .black, .king => { p with blackKings := v }

/-- The boardsByColor array lookup (Position.Color in the source). -/
def colorBoard (p : Position) (c : Color) : Nat :=
  match c with
  | .white => p.whiteUnion
  | .black => p.blackUnion

/-- The boardsByColor array store. -/
def setColorBoard (p : Position) (c : Color) (v : Nat) : Position :=
  match c with
  | .white => { p with whiteUnion := v }
  | .black => { p with blackUnion := v }

def castleNone : Nat := 0x0

def whiteOO : Nat := 0x1

def whiteOOO : Nat := 0x2

def whiteCastleMask : Nat := 0x3

def blackOO : Nat := 0x4

def blackOOO : Nat := 0x8

def blackCastleMask : Nat := 0xC

/-- InvalidSquare, the Go sentinel 255 meaning "no square". -/
def InvalidSquare : Nat := 255

def MakeEmptyPosition : Position where
  whitePawns := 0
  whiteKnights := 0
  whiteBishops := 0
  whiteRooks := 0
  whiteQueens := 0
  whiteKings := 0
  blackPawns := 0
  blackKnights := 0
  blackBishops := 0
  blackRooks := 0
  blackQueens := 0
  blackKings := 0
  whiteUnion := 0
  blackUnion := 0
  enPassantSquare := InvalidSquare
  halfmoveClock := 0
  fullmoveClock := 0
  sideToMove := .white
  castleStatus := 0

/-- The piece kinds in the order Position.PieceAt scans them
(for piece := Pawn; piece <= King; piece++). -/
def kindScanOrder : List PieceKind := [.pawn, .knight, .bishop, .rook, .queen, .king]

/-- Position.PieceAt: the piece at a square, if any; panics if a color
bitboard claims the square but no piece bitboard of that color does. -/
def PieceAt (p : Position) (square : Nat) : GoRes (Option Piece) :=
  let found : Color → GoRes (Option Piece) := fun color =>
    match kindScanOrder.find? (fun k => bbTest (boardsByPiece p color k) square) with
    | some k => .ok (some ⟨k, color⟩)
    | none => .panicked "invalid bitboard state in PieceAt!"
  if bbTest (colorBoard p .white) square then found .white
  else if bbTest (colorBoard p .black) square then found .black
  else .ok none

/-- Position.AddPiece: returns an error (not a fault) if a piece already
resides at the given location. -/
def AddPiece (p : Position) (square : Nat) (piece : Piece) : GoRes Position :=
  match PieceAt p square with
  | .panicked m => .panicked m
  | .err m => .err m
  | .ok (some _) => .err "a piece already exists at the target square"
  | .ok none =>
    let p := setColorBoard p piece.color (bbSet (colorBoard p piece.color) square)
    .ok (setPieceBoard p piece.color piece.kind
      (bbSet (boardsByPiece p piece.color piece.kind) square))

/-- Position.RemovePiece: returns an error (not a fault) if the square is
empty. -/
def RemovePiece (p : Position) (square : Nat) : GoRes Position :=
  match PieceAt p square with
  | .panicked m => .panicked m
  | .err m => .err m
  | .ok (some piece) =>
    let p := setColorBoard p piece.color (bbUnset (colorBoard p piece.color) square)
    .ok (setPieceBoard p piece.color piece.kind
      (bbUnset (boardsByPiece p piece.color piece.kind) square))
  | .ok none => .err "the target square is empty"

/-- addPieceOrPanic escalates AddPiece's recoverable error to a fault. -/
def addPieceOrPanic (p : Position) (square : Nat) (piece : Piece) : GoRes Position :=
  match AddPiece p square piece with
  | .err m => .panicked ("failed to add piece to board: " ++ m ++ "\n")
  | r => r

/-- removePieceOrPanic escalates RemovePiece's recoverable error to a
fault. -/
def removePieceOrPanic (p : Position) (square : Nat) : GoRes Position :=
  match RemovePiece p square with
  | .err m => .panicked ("failed to remove piece from board: " ++ m ++ "\n")
  | r => r

/-- pieceAtOrPanic: panics when the square is empty. -/
def pieceAtOrPanic (p : Position) (square : Nat) : GoRes Piece :=
  match PieceAt p square with
  | .ok (some piece) => .ok piece
  | .ok none => .panicked "failed to retrieve piece on board"
  | .err m => .err m
  | .panicked m => .panicked m

def Pieces (p : Position) (kind : PieceKind) (color : Color) : Nat := boardsByPiece p color kind

def Pawns (p : Position) (color : Color) : Nat := Pieces p .pawn color

def Rooks (p : Position) (color : Color) : Nat := Pieces p .rook color

def Knights (p : Position) (color : Color) : Nat := Pieces p .knight color

def Bishops (p : Position) (color : Color) : Nat := Pieces p .bishop color

def Queens (p : Position) (color : Color) : Nat := Pieces p .queen color

def Kings (p : Position) (color : Color) : Nat := Pieces p .king color

def HasEnPassantSquare (p : Position) : Bool := p.enPassantSquare != InvalidSquare

def CanCastleKingside (p : Position) (color : Color) : Bool :=
  if color = .white then p.castleStatus &&& whiteOO == whiteOO
  else p.castleStatus &&& blackOO == blackOO

def CanCastleQueenside (p : Position) (color : Color) : Bool :=
  if color = .white then p.castleStatus &&& whiteOOO == whiteOOO
  else p.castleStatus &&& blackOOO == blackOOO

/-- Position.SquaresAttacking: bitboard of pieces of the given color that
attack the given square. The pawn loop's extra en-passant branch re-adds
the same pawn bit and is kept for faithfulness. -/
def SquaresAttacking (p : Position) (color : Color) (square : Nat) : Nat :=
  let occupancy := colorBoard p .white ||| colorBoard p .black
  let result := 0
  let result := iterFold
    (fun acc q => if bbTest (QueenAttacks q occupancy) square then bbSet acc q else acc)
    64 (Queens p color) result
  let result := iterFold
    (fun acc r => if bbTest (RookAttacks r occupancy) square then bbSet acc r else acc)
    64 (Rooks p color) result
  let result := iterFold
    (fun acc b => if bbTest (BishopAttacks b occupancy) square then bbSet acc b else acc)
    64 (Bishops p color) result
  let result := iterFold
    (fun acc n => if bbTest (KnightAttacks n) square then bbSet acc n else acc)
    64 (Knights p color) result
  let result := iterFold
    (fun acc pw =>
      let acc := if bbTest (PawnAttacks pw color) square then bbSet acc pw else acc
      if HasEnPassantSquare p then
        if p.enPassantSquare = square && bbTest (PawnAttacks pw color) square then bbSet acc pw
        else acc
      else acc)
    64 (Pawns p color) result
  let result := iterFold
    (fun acc k => if bbTest (KingAttacks k) square then bbSet acc k else acc)
    64 (Kings p color) result
  result

/-- Position.IsCheck: whether the given color's king (any of them) is
attacked; false when no king exists. -/
def IsCheck (p : Position) (color : Color) : Bool :=
  let kings := Kings p color
  if bbCount kings = 0 then false
  else iterFold (fun acc king => acc || SquaresAttacking p color.toggle king != 0) 64 kings false

/-- Position.applyCapture: removes the captured piece (for en-passant, the
square directly behind the en-passant target square from the mover's point
of view; otherwise the move's destination square) and clears the
opponent's castling right when the capture lands on a rook starting
square. -/
def applyCapture (p : Position) (mov : Nat) : GoRes Position :=
  let targetSquare :=
    if isEnPassant mov then
      let direction := if p.sideToMove = .white then Direction.south else Direction.north
      towards p.enPassantSquare direction
    else moveDestination mov
  (removePieceOrPanic p targetSquare).bind fun p =>
    let opposingSide := p.sideToMove.toggle
    let p :=
      if CanCastleKingside p opposingSide then
        let startingSquare := if opposingSide = .white then 7 else 63
        let castleFlag := if opposingSide = .white then whiteOO else blackOO
        if targetSquare = startingSquare then
          { p with castleStatus := p.castleStatus &&& (0xFF ^^^ castleFlag) }
        else p
      else p
    let p :=
      if CanCastleQueenside p opposingSide then
        let startingSquare := if opposingSide = .white then 0 else 56
        let castleFlag := if opposingSide = .white then whiteOOO else blackOOO
        if targetSquare = startingSquare then
          { p with castleStatus := p.castleStatus &&& (0xFF ^^^ castleFlag) }
        else p
      else p
    .ok p

/-- Position.applyCastle: relocates the rook around the king's castle
destination; panics when the expected rook square does not hold a rook. -/
def applyCastle (p : Position) (mov : Nat) : GoRes Position :=
  let postCastleDir := if isKingsideCastle mov then Direction.west else Direction.east
  let preCastleDir := if isKingsideCastle mov then Direction.east else Direction.west
  let rookSquare :=
    if isKingsideCastle mov then towards (moveDestination mov) preCastleDir
    else towards (towards (moveDestination mov) preCastleDir) preCastleDir
  let newRookSquare := towards (moveDestination mov) postCastleDir
  (pieceAtOrPanic p rookSquare).bind fun rook =>
    if rook.kind ≠ .rook then .panicked "piece at rook castle square is not a rook"
    else (removePieceOrPanic p rookSquare).bind fun p => addPieceOrPanic p newRookSquare rook

def clearCastleStatus (p : Position) : Position :=
  let mask := if p.sideToMove = .white then whiteCastleMask else blackCastleMask
  { p with castleStatus := p.castleStatus &&& (0xFF ^^^ mask) }

def clearKingsideCastle (p : Position) : Position :=
  let mask := if p.sideToMove = .white then whiteOO else blackOO
  { p with castleStatus := p.castleStatus &&& (0xFF ^^^ mask) }

def clearQueensideCastle (p : Position) : Position :=
  let mask := if p.sideToMove = .white then whiteOOO else blackOOO
  { p with castleStatus := p.castleStatus &&& (0xFF ^^^ mask) }

/-- Position.updateCastleStatus: king moves clear both of the mover's
rights, rook moves from an original rook square clear that side's right. -/
def updateCastleStatus (p : Position) (mov : Nat) (movingPiece : Piece) : Position :=
  match movingPiece.kind with
  | .king => clearCastleStatus p
  | .rook =>
    let kingsideRook := if p.sideToMove = .white then 7 else 63
    let queensideRook := if p.sideToMove = .white then 0 else 56
    let p :=
      if CanCastleQueenside p p.sideToMove && moveSource mov = queensideRook then
        clearQueensideCastle p
      else p
    if CanCastleKingside p p.sideToMove && moveSource mov = kingsideRook then
      clearKingsideCastle p
    else p
  | _ => p

/-- Position.ApplyMove (options.debugChecks is false in the source, so the
pseudo-legality debug assertion is compiled out). A null move (zero
encoding) only toggles the side to move. -/
def ApplyMove (p : Position) (mov : Nat) : GoRes Position :=
  if isNull mov then .ok { p with sideToMove := p.sideToMove.toggle }
  else
    (pieceAtOrPanic p (moveSource mov)).bind fun movingPiece =>
    (removePieceOrPanic p (moveSource mov)).bind fun p =>
    (if isCapture mov then applyCapture p mov else .ok p).bind fun p =>
    (if isCastle mov then applyCastle p mov else .ok p).bind fun p =>
    (if isPromotion mov then
        (PromotionPiece mov).bind fun k => .ok (Piece.mk k movingPiece.color)
      else .ok movingPiece).bind fun pieceToAdd =>
    (addPieceOrPanic p (moveDestination mov) pieceToAdd).bind fun p =>
    let p :=
      if isDoublePawnPush mov then
        let epDir := if p.sideToMove = .white then Direction.south else Direction.north
        { p with enPassantSquare := towards (moveDestination mov) epDir }
      else { p with enPassantSquare := InvalidSquare }
    let p :=
      if CanCastleKingside p p.sideToMove || CanCastleQueenside p p.sideToMove then
        updateCastleStatus p mov movingPiece
      else p
    let p := { p with sideToMove := p.sideToMove.toggle }
    let p :=
      if isCapture mov || movingPiece.kind = .pawn then { p with halfmoveClock := 0 }
      else { p with halfmoveClock := (p.halfmoveClock + 1) % 2 ^ 32 }
    let p :=
      if p.sideToMove = .white then { p with fullmoveClock := (p.fullmoveClock + 1) % 2 ^ 32 }
      else p
    .ok p

/-- Position.Clone is a deep copy; positions are pure values in this
embedding, so it is the identity. -/
def Clone (p : Position) : Position := p

/-! ## Pseudo-legal move generation (movegen.go) -/

/-- generatePawnMoves. Notable details kept from the source: promotion
moves are appended in Bishop, Knight, Rook, Queen order, and the
en-passant move's destination is computed as the square behind the
en-passant target square, i.e. the captured pawn's own square. -/
def generatePawnMoves (p : Position) (moves : List Nat) : List Nat :=
  let color := p.sideToMove
  let enemyPieceMap := colorBoard p color.toggle
  let alliedPieceMap := colorBoard p color
  let allPieces := enemyPieceMap ||| alliedPieceMap
  let startingRank := if color = .white then 1 else 6
  let promoRank := if color = .white then 7 else 0
  let pawnDirection := if color = .white then Direction.north else Direction.south
  let enPassantDirection := if color = .white then Direction.south else Direction.north
  iterFold (fun moves pawn =>
    let target := towards pawn pawnDirection
    let moves :=
      if squareRank target == promoRank && !bbTest allPieces target then
        moves ++ [MakePromotionMove pawn target .bishop, MakePromotionMove pawn target .knight,
          MakePromotionMove pawn target .rook, MakePromotionMove pawn target .queen]
      else if !bbTest allPieces target then moves ++ [MakeQuietMove pawn target]
      else moves
    let moves :=
      if squareRank pawn == startingRank then
        let twoPushTarget := towards target pawnDirection
        if !bbTest allPieces target && !bbTest allPieces twoPushTarget then
          moves ++ [MakeDoublePawnPushMove pawn twoPushTarget]
        else moves
      else moves
    let moves := iterFold (fun moves pawnAttack =>
      if bbTest enemyPieceMap pawnAttack then
        if squareRank pawnAttack == promoRank then
          moves ++ [MakePromotionCaptureMove pawn pawnAttack .bishop,
            MakePromotionCaptureMove pawn pawnAttack .knight,
            MakePromotionCaptureMove pawn pawnAttack .rook,
            MakePromotionCaptureMove pawn pawnAttack .queen]
        else moves ++ [MakeCaptureMove pawn pawnAttack]
      else moves) 64 (PawnAttacks pawn color) moves
    if HasEnPassantSquare p then
      let epSquare := p.enPassantSquare
      if bbTest (PawnAttacks pawn color) epSquare then
        moves ++ [MakeEnPassantMove pawn (towards epSquare enPassantDirection)]
      else moves
    else moves) 64 (Pawns p color) moves

/-- generateKnightMoves. -/
def generateKnightMoves (p : Position) (moves : List Nat) : List Nat :=
  let color := p.sideToMove
  let enemyPieceMap := colorBoard p color.toggle
  let alliedPieceMap := colorBoard p color
  iterFold (fun moves knight =>
    iterFold (fun moves knightAttack =>
      if bbTest enemyPieceMap knightAttack then moves ++ [MakeCaptureMove knight knightAttack]
      else if !bbTest alliedPieceMap knightAttack then
        moves ++ [MakeQuietMove knight knightAttack]
      else moves) 64 (KnightAttacks knight) moves) 64 (Knights p color) moves

/-- The capture-or-quiet filter shared by the slider loop body. -/
def slidingBody (enemyPieceMap alliedPieceMap piece attack : Nat) (moves : List Nat) :
    List Nat :=
  if bbTest enemyPieceMap attack then moves ++ [MakeCaptureMove piece attack]
  else if !bbTest alliedPieceMap attack then moves ++ [MakeQuietMove piece attack]
  else moves

/-- The inner loop of generateSlidingMoves, exactly as the source has it:
the loop's init pulls the first square from the ATTACKS iterator, but its
update pulls subsequent values from the shared PIECES iterator
(attack, next = pieces.Next()), consuming the origin-piece iterator. The
function returns the mutated pieces-iterator state together with the move
list. 128 steps of fuel exceed any iterator's population count. -/
def slideInner (enemyPieceMap alliedPieceMap piece : Nat) :
    Nat → Nat → Nat → List Nat → Nat × List Nat
  | 0, attack, piecesIter, moves => (piecesIter, slidingBody enemyPieceMap alliedPieceMap piece attack moves)
  | fuel + 1, attack, piecesIter, moves =>
    let moves := slidingBody enemyPieceMap alliedPieceMap piece attack moves
    match iterNext piecesIter with
    | none => (piecesIter, moves)
    | some (attack', piecesIter') =>
      slideInner enemyPieceMap alliedPieceMap piece fuel attack' piecesIter' moves

/-- The outer loop of generateSlidingMoves: iterates the origin-piece
iterator, whose state the inner loop also consumes. -/
def slideOuter (attackFunc : Nat → Nat → Nat) (occupancy enemyPieceMap alliedPieceMap : Nat) :
    Nat → Nat → List Nat → List Nat
  | 0, _, moves => moves
  | fuel + 1, piecesIter, moves =>
    match iterNext piecesIter with
    | none => moves
    | some (piece, piecesIter) =>
      let attacks := attackFunc piece occupancy
      match iterNext attacks with
      | none => slideOuter attackFunc occupancy enemyPieceMap alliedPieceMap fuel piecesIter moves
      | some (attack0, _) =>
        let (piecesIter', moves') :=
          slideInner enemyPieceMap alliedPieceMap piece 128 attack0 piecesIter moves
        slideOuter attackFunc occupancy enemyPieceMap alliedPieceMap fuel piecesIter' moves'

/-- generateSlidingMoves. -/
def generateSlidingMoves (p : Position) (moves : List Nat) (attackFunc : Nat → Nat → Nat)
    (boardFunc : Color → Nat) : List Nat :=
  let color := p.sideToMove
  let enemyPieceMap := colorBoard p color.toggle
  let alliedPieceMap := colorBoard p color
  slideOuter attackFunc (enemyPieceMap ||| alliedPieceMap) enemyPieceMap alliedPieceMap 65
    (boardFunc color) moves

/-- generateKingMoves. The castling block sits inside the per-attack-square
loop, exactly as in the source. -/
def generateKingMoves (p : Position) (moves : List Nat) : List Nat :=
  let color := p.sideToMove
  let enemyPieceMap := colorBoard p color.toggle
  let alliedPieceMap := colorBoard p color
  let allPieces := enemyPieceMap ||| alliedPieceMap
  iterFold (fun moves king =>
    iterFold (fun moves attack =>
      let moves :=
        if bbTest enemyPieceMap attack then moves ++ [MakeCaptureMove king attack]
        else if !bbTest alliedPieceMap attack then moves ++ [MakeQuietMove king attack]
        else moves
      if !IsCheck p color then
        let moves :=
          if CanCastleKingside p color then
            let one := towards king .east
            let two := towards one .east
            if !bbTest allPieces one && !bbTest allPieces two then
              if SquaresAttacking p color.toggle one == 0
                  && SquaresAttacking p color.toggle two == 0 then
                moves ++ [MakeKingsideCastleMove king two]
              else moves
            else moves
          else moves
        if CanCastleQueenside p color then
          let one := towards king .west
          let two := towards one .west
          let three := towards two .west
          if !bbTest allPieces one && !bbTest allPieces two && !bbTest allPieces three then
            if SquaresAttacking p color.toggle one == 0
                && SquaresAttacking p color.toggle two == 0 then
              moves ++ [MakeQueensideCastleMove king two]
            else moves
          else moves
        else moves
      else moves) 64 (KingAttacks king) moves) 64 (Kings p color) moves

/-- generatePseudolegalMoves: the source composes the pawn, knight and
three slider generators. It never invokes generateKingMoves, so the
pseudo-legal move list contains no king moves and no castle moves. -/
def generatePseudolegalMoves (p : Position) : List Nat :=
  let moves : List Nat := []
  let moves := generatePawnMoves p moves
  let moves := generateKnightMoves p moves
  let moves := generateSlidingMoves p moves BishopAttacks (fun c => Bishops p c)
  let moves := generateSlidingMoves p moves RookAttacks (fun c => Rooks p c)
  let moves := generateSlidingMoves p moves QueenAttacks (fun c => Queens p c)
  moves

/-- Position.PseudolegalMoves. -/
def PseudolegalMoves (p : Position) : List Nat := generatePseudolegalMoves p

/-! ## Perft (perft.go) -/

structure Results where
  nodes : Nat
  captures : Nat
  enPassants : Nat
  castles : Nat
  promotions : Nat
  checks : Nat
  checkmates : Nat
deriving Repr, DecidableEq

def emptyResults : Results := ⟨0, 0, 0, 0, 0, 0, 0⟩

/-- perftImpl: clone-apply-filter-recurse enumeration. The counters are
uint64 in Go, hence the reductions modulo 2 ^ 64. Any fault inside
ApplyMove propagates (a Go panic aborts the traversal). -/
def perftImpl (results : Results) (pos : Position) : Nat → GoRes Results
  | 0 => .ok { results with nodes := (results.nodes + 1) % two64 }
  | depth + 1 =>
    ((PseudolegalMoves pos).foldl (fun (acc : GoRes (Results × Bool)) move =>
        acc.bind fun rs =>
          let r := rs.1
          let seenLegalMove := rs.2
          let newPos := Clone pos
          let toMove := pos.sideToMove
          (ApplyMove newPos move).bind fun newPos =>
            if !IsCheck newPos toMove then
              let r := if isCapture move then
                { r with captures := (r.captures + 1) % two64 } else r
              let r := if isEnPassant move then
                { r with enPassants := (r.enPassants + 1) % two64 } else r
              let r := if isKingsideCastle move || isQueensideCastle move then
                { r with castles := (r.castles + 1) % two64 } else r
              let r := if isPromotion move then
                { r with promotions := (r.promotions + 1) % two64 } else r
              let r := if IsCheck newPos toMove.toggle then
                { r with checks := (r.checks + 1) % two64 } else r
              (perftImpl r newPos depth).bind fun r => .ok (r, true)
            else .ok (r, seenLegalMove))
      (.ok (results, false))).bind fun rs =>
      if !rs.2 then .ok { rs.1 with checkmates := (rs.1.checkmates + 1) % two64 }
      else .ok rs.1

/-- Perft's recursive core run from fresh counters (FEN parsing, which the
Go entry point performs first, is outside the embedded core; positions are
supplied directly). -/
def perftRun (pos : Position) (depth : Nat) : GoRes Results := perftImpl emptyResults pos depth

/-! ## Concrete positions used by the claims -/

/-- Populate a position piece by piece through AddPiece (the way FEN
loading and test setup build boards). -/
def addPieceList (p : Position) : List (Nat × Piece) → GoRes Position
  | [] => .ok p
  | (sq, piece) :: rest => (AddPiece p sq piece).bind fun p => addPieceList p rest

/-- Build a position from a piece list and the scalar fields the FEN
loader assigns directly. -/
def positionOf (pieces : List (Nat × Piece)) (side : Color) (castle : Nat) (ep : Nat)
    (half full : Nat) : GoRes Position :=
  (addPieceList MakeEmptyPosition pieces).bind fun p =>
    .ok { p with
            sideToMove := side, castleStatus := castle, enPassantSquare := ep,
            halfmoveClock := half, fullmoveClock := full }

/-- White's standard first-rank pieces and pawns plus black's, i.e. the
board of FEN rnbqkbnr/pppppppp/8/8/8/8/PPPPPPPP/RNBQKBNR. -/
def startPieces : List (Nat × Piece) :=
  [(56, ⟨.rook, .black⟩), (57, ⟨.knight, .black⟩), (58, ⟨.bishop, .black⟩),
   (59, ⟨.queen, .black⟩), (60, ⟨.king, .black⟩), (61, ⟨.bishop, .black⟩),
   (62, ⟨.knight, .black⟩), (63, ⟨.rook, .black⟩),
   (48, ⟨.pawn, .black⟩), (49, ⟨.pawn, .black⟩), (50, ⟨.pawn, .black⟩),
   (51, ⟨.pawn, .black⟩), (52, ⟨.pawn, .black⟩), (53, ⟨.pawn, .black⟩),
   (54, ⟨.pawn, .black⟩), (55, ⟨.pawn, .black⟩),
   (8, ⟨.pawn, .white⟩), (9, ⟨.pawn, .white⟩), (10, ⟨.pawn, .white⟩),
   (11, ⟨.pawn, .white⟩), (12, ⟨.pawn, .white⟩), (13, ⟨.pawn, .white⟩),
   (14, ⟨.pawn, .white⟩), (15, ⟨.pawn, .white⟩),
   (0, ⟨.rook, .white⟩), (1, ⟨.knight, .white⟩), (2, ⟨.bishop, .white⟩),
   (3, ⟨.queen, .white⟩), (4, ⟨.king, .white⟩), (5, ⟨.bishop, .white⟩),
   (6, ⟨.knight, .white⟩), (7, ⟨.rook, .white⟩)]

/-- The standard starting position, i.e. the position denoted by FEN
"rnbqkbnr/pppppppp/8/8/8/8/PPPPPPPP/RNBQKBNR w KQkq - 0 1". -/
def startPosition : Position :=
  (positionOf startPieces .white 0xF InvalidSquare 0 1).getD MakeEmptyPosition

/-! ## Positions and reference definitions used by the claims -/

/-- The position of FEN "rnbqkbnr/1ppppppp/p7/8/8/3P4/PPP1PPPP/RNBQKBNR w
KQkq - 0 2" (the repository's early-game-king move generation test): an
opening position in which the white king's square d2 is free. -/
def earlyGameKingPosition : Position :=
  (positionOf
    [(56, ⟨.rook, .black⟩), (57, ⟨.knight, .black⟩), (58, ⟨.bishop, .black⟩),
     (59, ⟨.queen, .black⟩), (60, ⟨.king, .black⟩), (61, ⟨.bishop, .black⟩),
     (62, ⟨.knight, .black⟩), (63, ⟨.rook, .black⟩),
     (49, ⟨.pawn, .black⟩), (50, ⟨.pawn, .black⟩), (51, ⟨.pawn, .black⟩),
     (52, ⟨.pawn, .black⟩), (53, ⟨.pawn, .black⟩), (54, ⟨.pawn, .black⟩),
     (55, ⟨.pawn, .black⟩), (40, ⟨.pawn, .black⟩),
     (19, ⟨.pawn, .white⟩),
     (8, ⟨.pawn, .white⟩), (9, ⟨.pawn, .white⟩), (10, ⟨.pawn, .white⟩),
     (12, ⟨.pawn, .white⟩), (13, ⟨.pawn, .white⟩), (14, ⟨.pawn, .white⟩),
     (15, ⟨.pawn, .white⟩),
     (0, ⟨.rook, .white⟩), (1, ⟨.knight, .white⟩), (2, ⟨.bishop, .white⟩),
     (3, ⟨.queen, .white⟩), (4, ⟨.king, .white⟩), (5, ⟨.bishop, .white⟩),
     (6, ⟨.knight, .white⟩), (7, ⟨.rook, .white⟩)]
    .white 0xF InvalidSquare 0 2).getD MakeEmptyPosition

/-- The position of FEN "rnbqkbnr/1ppppppp/p7/8/8/P7/1PPPPPPP/RNBQKBNR w
KQkq - 0 1" (the repository's early-game-rook move generation test): both
sides have pushed their a-pawns one square, freeing a2 for the white
rook. -/
def earlyGameRookPosition : Position :=
  (positionOf
    [(56, ⟨.rook, .black⟩), (57, ⟨.knight, .black⟩), (58, ⟨.bishop, .black⟩),
     (59, ⟨.queen, .black⟩), (60, ⟨.king, .black⟩), (61, ⟨.bishop, .black⟩),
     (62, ⟨.knight, .black⟩), (63, ⟨.rook, .black⟩),
     (49, ⟨.pawn, .black⟩), (50, ⟨.pawn, .black⟩), (51, ⟨.pawn, .black⟩),
     (52, ⟨.pawn, .black⟩), (53, ⟨.pawn, .black⟩), (54, ⟨.pawn, .black⟩),
     (55, ⟨.pawn, .black⟩), (40, ⟨.pawn, .black⟩),
     (16, ⟨.pawn, .white⟩),
     (9, ⟨.pawn, .white⟩), (10, ⟨.pawn, .white⟩), (11, ⟨.pawn, .white⟩),
     (12, ⟨.pawn, .white⟩), (13, ⟨.pawn, .white⟩), (14, ⟨.pawn, .white⟩),
     (15, ⟨.pawn, .white⟩),
     (0, ⟨.rook, .white⟩), (1, ⟨.knight, .white⟩), (2, ⟨.bishop, .white⟩),
     (3, ⟨.queen, .white⟩), (4, ⟨.king, .white⟩), (5, ⟨.bishop, .white⟩),
     (6, ⟨.knight, .white⟩), (7, ⟨.rook, .white⟩)]
    .white 0xF InvalidSquare 0 1).getD MakeEmptyPosition

/-- The position of FEN "8/8/8/3pP3/8/8/8/8 w - d6 0 1": a white pawn on
e5, a black pawn on d5 that has just double-pushed, en-passant target
square d6 (square 43), white to move. -/
def epPosition : Position :=
  (positionOf [(35, ⟨.pawn, .black⟩), (36, ⟨.pawn, .white⟩)]
    .white 0x0 43 0 1).getD MakeEmptyPosition

/-- diagonalAttacks as claim C6 words it: first blocker by lowest set bit
for the SouthEast ray and by highest set bit for the NorthWest ray (the
opposite pairing from the source's diagonalAttacks). -/
def diagonalAttacksClaim (square occupancy : Nat) : Nat :=
  positiveRayAttacks square occupancy .southEast ||| negativeRayAttacks square occupancy .northWest

/-- The twelve piece bitboards of a position, in boardsByPiece order. -/
def pieceBoards (p : Position) : List Nat :=
  [p.whitePawns, p.whiteKnights, p.whiteBishops, p.whiteRooks, p.whiteQueens, p.whiteKings,
   p.blackPawns, p.blackKnights, p.blackBishops, p.blackRooks, p.blackQueens, p.blackKings]

/-- The occupancy invariant of claim C7: every square is claimed by at most
one (kind, color) bitboard, and each color's union bitboard is the
bitwise OR of that color's six piece bitboards. -/
def OccupancyInvariant (p : Position) : Prop :=
  (∀ sq : Nat, ((pieceBoards p).countP (fun b => bbTest b sq)) ≤ 1)
  ∧ p.whiteUnion =
      p.whitePawns ||| p.whiteKnights ||| p.whiteBishops ||| p.whiteRooks |||
        p.whiteQueens ||| p.whiteKings
  ∧ p.blackUnion =
      p.blackPawns ||| p.blackKnights ||| p.blackBishops ||| p.blackRooks |||
        p.blackQueens ||| p.blackKings

/-- All bitboards of a position are genuine 64-bit values. -/
def BoardsBounded (p : Position) : Prop :=
  p.whitePawns < two64 ∧ p.whiteKnights < two64 ∧ p.whiteBishops < two64
    ∧ p.whiteRooks < two64 ∧ p.whiteQueens < two64 ∧ p.whiteKings < two64
    ∧ p.blackPawns < two64 ∧ p.blackKnights < two64 ∧ p.blackBishops < two64
    ∧ p.blackRooks < two64 ∧ p.blackQueens < two64 ∧ p.blackKings < two64
    ∧ p.whiteUnion < two64 ∧ p.blackUnion < two64

/-- The positions reachable from the empty position through the defined
mutation operations: AddPiece, RemovePiece, ApplyMove (on their success
paths), and the direct scalar-field assignments the FEN loader performs
(side to move, castling rights, en-passant square, clocks). A FEN-loaded
position is reachable: the loader builds the board from the empty position
through AddPiece and then assigns the scalar fields. -/
inductive Reachable : Position → Prop where
  | empty : Reachable MakeEmptyPosition
  | add {p : Position} {sq : Nat} {piece : Piece} {q : Position} :
      Reachable p → AddPiece p sq piece = .ok q → Reachable q
  | remove {p : Position} {sq : Nat} {q : Position} :
      Reachable p → RemovePiece p sq = .ok q → Reachable q
  | apply {p : Position} {mov : Nat} {q : Position} :
      Reachable p → ApplyMove p mov = .ok q → Reachable q
  | scalars {p : Position} (ep half full : Nat) (side : Color) (castle : Nat) :
      Reachable p →
      Reachable { p with
                    enPassantSquare := ep, halfmoveClock := half, fullmoveClock := full,
                    sideToMove := side, castleStatus := castle }

/-- Sequential move application, as the perft driver and any game loop
performs it. -/
def applySeq (p : Position) : List Nat → GoRes Position
  | [] => .ok p
  | mov :: rest => (ApplyMove p mov).bind fun q => applySeq q rest

def startBoard : Position :=
  (addPieceList MakeEmptyPosition startPieces).getD MakeEmptyPosition

def captureTarget (p : Position) (mov : Nat) : Nat :=
  if isEnPassant mov then
    towards p.enPassantSquare
      (if p.sideToMove = .white then Direction.south else Direction.north)
  else moveDestination mov

/-! ## Theorems -/

/-- Every ray table entry equals what populateDirection computes for it,
for every square and every direction in the build order. -/
theorem rayTable_build :
    ∀ d ∈ initializeRaysOrder, ∀ sq, sq < 64 → rayTable sq d = populateDirection sq d := by
  decide

theorem knightTable_build : ∀ sq, sq < 64 → knightTable sq = knightTableBuild sq := by decide

theorem kingTable_build : ∀ sq, sq < 64 → kingTable sq = kingTableBuild sq := by decide

theorem pawnTable_build :
    ∀ sq, sq < 64 → pawnTable sq .white = pawnTableBuild sq .white
      ∧ pawnTable sq .black = pawnTableBuild sq .black := by
  decide

/-- C1: the claim asserts that Direction.AsVector returns the unit offset
for every one of the eight directions without faulting, so that ray
casting and attack-table initialization complete. In the source the
SouthEast case of the switch is missing: AsVector(SouthEast) hits the
panic branch, Square.Towards is undefined for SouthEast, populateDirection
faults on every non-edge square (square 8 = a2 shown), and initializeRays
does not complete. The other seven directions do return their unit
offsets, so the claim is right about the intent and the code faults. -/
theorem c1_direction_asVector_southEast_faults :
    asVectorGo .southEast = none
    ∧ towardsGo 8 .southEast = none
    ∧ populateDirectionGo 8 .southEast = none
    ∧ initializeRaysOk = false
    ∧ asVectorGo .north = some 8 ∧ asVectorGo .northEast = some 9 ∧ asVectorGo .east = some 1
    ∧ asVectorGo .south = some (-8) ∧ asVectorGo .southWest = some (-9)
    ∧ asVectorGo .west = some (-1) ∧ asVectorGo .northWest = some 7 := by
  decide

/-- C2: in the early-game-king test position the square d2 (11) is a free
king leaper-attack square of the white king on e1 (4), and
generateKingMoves would emit the quiet move e1d2, but the pseudo-legal
move list omits it: generatePseudolegalMoves never invokes
generateKingMoves, so the list contains no king moves at all. -/
theorem c2_pseudolegal_moves_omit_king_moves :
    (PseudolegalMoves earlyGameKingPosition).contains (MakeQuietMove 4 11) = false
    ∧ (generateKingMoves earlyGameKingPosition []).contains (MakeQuietMove 4 11) = true
    ∧ bbTest (KingAttacks 4) 11 = true
    ∧ bbTest (colorBoard earlyGameKingPosition .white) 11 = false := by
  decide

/-- C3: in the early-game-rook test position the white rook on a1 (0) has
a2 (8) in its slider attack set and a2 holds no white piece, so the claim
requires a move a1-to-a2 in the pseudo-legal list; the generated list
contains no move from a1 at all, because the slider generator's inner loop
advances the origin-piece iterator instead of the attack-square
iterator. -/
theorem c3_sliding_generation_drops_rook_moves :
    bbTest (RookAttacks 0 (colorBoard earlyGameRookPosition .white |||
      colorBoard earlyGameRookPosition .black)) 8 = true
    ∧ bbTest (colorBoard earlyGameRookPosition .white) 8 = false
    ∧ ((PseudolegalMoves earlyGameRookPosition).filter (fun m => moveSource m == 0)).length = 0
    ∧ (PseudolegalMoves earlyGameRookPosition).contains (MakeQuietMove 0 8) = false := by
  decide

/-- C4: from the standard starting position the perft traversal returns 20
nodes at depth 1 and 400 nodes at depth 2 (with zero counts in every other
category), matching the claim at those depths. At depth 3 the same
traversal computes 7766 nodes, 20 captures and 0 checks where the claim
(and the repository's own perft test table) requires 8902, 34 and 12; the
depth-3 run is the failing input recorded for this claim. -/
theorem c4_perft_depth_one_and_two :
    perftRun startPosition 1 = .ok ⟨20, 0, 0, 0, 0, 0, 0⟩
    ∧ perftRun startPosition 2 = .ok ⟨400, 0, 0, 0, 0, 0, 0⟩ := by
  decide!

/-- C5 counterexample: in the en-passant position (white pawn e5, black
pawn d5, en-passant target d6 = square 43) the generator itself produces
the en-passant move with destination d5 = square 35, the square directly
behind the en-passant target; applying it via ApplyMove removes the
captured black pawn from square 35, which IS the move's destination
square, contradicting the claim's "and is not the move's destination
square". -/
theorem c5_counterexample_ep_removes_at_destination :
    (PseudolegalMoves epPosition).contains (MakeEnPassantMove 36 35) = true
    ∧ isEnPassant (MakeEnPassantMove 36 35) = true
    ∧ moveDestination (MakeEnPassantMove 36 35) = 35
    ∧ epPosition.enPassantSquare = 43
    ∧ towards 43 .south = 35
    ∧ bbTest (Pawns epPosition .black) 35 = true
    ∧ (ApplyMove epPosition (MakeEnPassantMove 36 35)).isOk = true
    ∧ bbTest (Pawns ((ApplyMove epPosition (MakeEnPassantMove 36 35)).getD MakeEmptyPosition)
        .black) 35 = false
    ∧ bbTest (Pawns ((ApplyMove epPosition (MakeEnPassantMove 36 35)).getD MakeEmptyPosition)
        .white) 35 = true := by
  decide

/-- C6 counterexample: for the square c8 (58) with occupancy on e6 (44)
and g4 (30), the SouthEast ray resolution of the source (diagonalAttacks,
highest-set-bit for SouthEast) yields the squares d7 and e6 and stops at
the first blocker e6, while the claim's pairing (lowest-set-bit for
SouthEast, as diagonalAttacksClaim implements it) would yield d7, e6, f5
and g4, keeping squares beyond the first blocker. The two disagree, so
the claim's description of the direction pairing is wrong about this
code. -/
theorem c6_counterexample_southeast_pairing :
    diagonalAttacks 58 (bbSet (bbSet 0 44) 30) ≠ diagonalAttacksClaim 58 (bbSet (bbSet 0 44) 30)
    ∧ diagonalAttacks 58 (bbSet (bbSet 0 44) 30) = bbSet (bbSet 0 44) 51
    ∧ diagonalAttacksClaim 58 (bbSet (bbSet 0 44) 30) =
        bbSet (bbSet (bbSet (bbSet 0 30) 37) 44) 51 := by
  decide

/-- C9 counterexample: removing a piece from an empty square and adding a
piece to an occupied square do NOT fault: the operations
Position.RemovePiece and Position.AddPiece return recoverable Go error
values and the process continues, contradicting the claim that each of
the three listed violations is an unrecoverable fail-fast fault. -/
theorem c9_counterexample_recoverable_errors :
    (RemovePiece MakeEmptyPosition 0).isErr = true
    ∧ (RemovePiece MakeEmptyPosition 0).isPanic = false
    ∧ (AddPiece startPosition 0 ⟨.pawn, .white⟩).isErr = true
    ∧ (AddPiece startPosition 0 ⟨.pawn, .white⟩).isPanic = false := by
  decide

/-- C9 as amended: decoding the promotion piece of a non-promotion move is
an unrecoverable fault (Move.PromotionPiece panics); removing a piece from
an empty square and adding a piece to an occupied square are recoverable
errors at the public operations RemovePiece/AddPiece, and only the
removePieceOrPanic/addPieceOrPanic wrappers used during move application
escalate those errors to unrecoverable faults. -/
theorem c9_fault_paths :
    (PromotionPiece (MakeQuietMove 12 20)).isPanic = true
    ∧ (removePieceOrPanic MakeEmptyPosition 0).isPanic = true
    ∧ (addPieceOrPanic startPosition 0 ⟨.pawn, .white⟩).isPanic = true
    ∧ (RemovePiece MakeEmptyPosition 0).isErr = true
    ∧ (AddPiece startPosition 0 ⟨.pawn, .white⟩).isErr = true := by
  decide

/-- C10: the packed move encoding collapses a quiet a1-to-a1 move to the
zero encoding, which is exactly the null move: IsNull is true for it, and
ApplyMove on it takes the null-move quick-out, toggling the side to move
and changing nothing else, for every position. -/
theorem c10_null_move_encoding :
    MakeQuietMove 0 0 = 0
    ∧ MakeQuietMove 0 0 = MakeNullMove 28 36
    ∧ isNull (MakeQuietMove 0 0) = true
    ∧ ∀ p : Position, ApplyMove p (MakeQuietMove 0 0) =
        .ok { p with sideToMove := p.sideToMove.toggle } :=
  ⟨rfl, rfl, rfl, fun _ => rfl⟩

/-! ### Bit-level toolkit -/

theorem two64_eq : two64 = 2 ^ 64 := rfl

theorem bbBit_eq_two_pow {sq : Nat} (h : sq < 64) : bbBit sq = 2 ^ sq := by
  unfold bbBit
  rw [Nat.one_shiftLeft, two64_eq]
  exact Nat.mod_eq_of_lt (Nat.pow_lt_pow_right (by norm_num) h)

theorem bbBit_eq_zero {sq : Nat} (h : 64 ≤ sq) : bbBit sq = 0 := by
  unfold bbBit
  rw [Nat.one_shiftLeft, two64_eq]
  obtain ⟨c, hc⟩ := Nat.exists_eq_add_of_le h
  subst hc
  rw [Nat.pow_add]
  exact Nat.mul_mod_right _ _

theorem bbTest_eq_testBit {b : Nat} (hb : b < two64) (sq : Nat) : bbTest b sq = b.testBit sq := by
  unfold bbTest
  rcases Nat.lt_or_ge sq 64 with h | h
  · rw [bbBit_eq_two_pow h, Nat.and_two_pow]
    cases hbit : b.testBit sq <;> simp [hbit, Nat.ne_of_gt (Nat.two_pow_pos sq)]
  · rw [bbBit_eq_zero h, Nat.and_zero]
    rw [Nat.testBit_lt_two_pow (Nat.lt_of_lt_of_le hb (Nat.pow_le_pow_right (by norm_num) h))]
    rfl

theorem bbTest_lor (a b sq : Nat) : bbTest (a ||| b) sq = (bbTest a sq || bbTest b sq) := by
  unfold bbTest
  rcases Nat.lt_or_ge sq 64 with h | h
  · rw [bbBit_eq_two_pow h, Nat.and_two_pow, Nat.and_two_pow, Nat.and_two_pow, Nat.testBit_lor]
    cases ha : a.testBit sq <;> cases hb : b.testBit sq <;>
      simp [Nat.ne_of_gt (Nat.two_pow_pos sq)]
  · simp [bbBit_eq_zero h]

theorem testBit_bbSet {b : Nat} (sq i : Nat) :
    (bbSet b sq).testBit i = (b.testBit i || (decide (sq < 64) && decide (sq = i))) := by
  unfold bbSet
  rw [Nat.testBit_lor]
  congr 1
  rcases Nat.lt_or_ge sq 64 with h | h
  · rw [bbBit_eq_two_pow h, Nat.testBit_two_pow]
    simp [h]
  · rw [bbBit_eq_zero h]
    simp [Nat.not_lt_of_ge h]

theorem testBit_bbUnset {b : Nat} (hb : b < two64) (sq i : Nat) :
    (bbUnset b sq).testBit i = (b.testBit i && !(decide (sq = i))) := by
  unfold bbUnset
  rw [Nat.testBit_land]
  rcases Nat.lt_or_ge i 64 with hi | hi
  · congr 1
    rw [Nat.testBit_xor]
    have hm : mask64.testBit i = true := by
      have : mask64 = 2 ^ 64 - 1 := rfl
      rw [this, Nat.testBit_two_pow_sub_one]
      simp [hi]
    rw [hm]
    rcases Nat.lt_or_ge sq 64 with hs | hs
    · rw [bbBit_eq_two_pow hs, Nat.testBit_two_pow]
      cases h : decide (sq = i) <;> simp_all
    · rw [bbBit_eq_zero hs]
      have : sq ≠ i := by omega
      simp [this]
  · have h1 : b.testBit i = false :=
      Nat.testBit_lt_two_pow (Nat.lt_of_lt_of_le hb (Nat.pow_le_pow_right (by norm_num) hi))
    simp [h1]

theorem bbSet_lt {b : Nat} (hb : b < two64) (sq : Nat) : bbSet b sq < two64 := by
  have h1 : bbBit sq < two64 := Nat.mod_lt _ (by decide)
  exact Nat.or_lt_two_pow hb h1

theorem bbUnset_lt {b : Nat} (hb : b < two64) (sq : Nat) : bbUnset b sq < two64 :=
  Nat.lt_of_le_of_lt Nat.and_le_left hb

theorem bbTest_of_ge {b sq : Nat} (h : 64 ≤ sq) : bbTest b sq = false := by
  unfold bbTest
  rw [bbBit_eq_zero h, Nat.and_zero]
  rfl

/-! ### Position-structure toolkit -/

theorem GoRes.bind_ok {α β : Type} {x : GoRes α} {f : α → GoRes β} {b : β}
    (h : GoRes.bind x f = .ok b) : ∃ a, x = .ok a ∧ f a = .ok b := by
  cases x with
  | ok a => exact ⟨a, rfl, h⟩
  | err m => simp [GoRes.bind] at h
  | panicked m => simp [GoRes.bind] at h

theorem boardsByPiece_set (p : Position) (c : Color) (k : PieceKind) (v : Nat) (c' : Color)
    (k' : PieceKind) :
    boardsByPiece (setPieceBoard p c k v) c' k' =
      if c = c' ∧ k = k' then v else boardsByPiece p c' k' := by
  cases c <;> cases k <;> cases c' <;> cases k' <;> simp [setPieceBoard, boardsByPiece]

theorem colorBoard_setColor (p : Position) (c : Color) (v : Nat) (c' : Color) :
    colorBoard (setColorBoard p c v) c' = if c = c' then v else colorBoard p c' := by
  cases c <;> cases c' <;> simp [setColorBoard, colorBoard]

theorem boardsByPiece_setColor (p : Position) (c : Color) (v : Nat) (c' : Color)
    (k' : PieceKind) : boardsByPiece (setColorBoard p c v) c' k' = boardsByPiece p c' k' := by
  cases c <;> cases c' <;> cases k' <;> rfl

theorem colorBoard_setPiece (p : Position) (c : Color) (k : PieceKind) (v : Nat) (c' : Color) :
    colorBoard (setPieceBoard p c k v) c' = colorBoard p c' := by
  cases c <;> cases k <;> cases c' <;> rfl

theorem setPieceBoard_scalars (p : Position) (c : Color) (k : PieceKind) (v : Nat) :
    (setPieceBoard p c k v).castleStatus = p.castleStatus
    ∧ (setPieceBoard p c k v).sideToMove = p.sideToMove
    ∧ (setPieceBoard p c k v).enPassantSquare = p.enPassantSquare := by
  cases c <;> cases k <;> exact ⟨rfl, rfl, rfl⟩

theorem setColorBoard_scalars (p : Position) (c : Color) (v : Nat) :
    (setColorBoard p c v).castleStatus = p.castleStatus
    ∧ (setColorBoard p c v).sideToMove = p.sideToMove
    ∧ (setColorBoard p c v).enPassantSquare = p.enPassantSquare := by
  cases c <;> exact ⟨rfl, rfl, rfl⟩

/-- PieceAt returns "empty" exactly when neither color union claims the
square. -/
theorem PieceAt_ok_none {p : Position} {sq : Nat} (h : PieceAt p sq = .ok none) :
    bbTest (colorBoard p .white) sq = false ∧ bbTest (colorBoard p .black) sq = false := by
  unfold PieceAt at h
  by_cases h1 : bbTest (colorBoard p .white) sq
  · simp only [h1, if_true] at h
    cases hf : List.find? (fun k => bbTest (boardsByPiece p .white k) sq) kindScanOrder <;>
      simp [hf] at h
  · by_cases h2 : bbTest (colorBoard p .black) sq
    · simp only [h1, h2, if_false, if_true] at h
      cases hf : List.find? (fun k => bbTest (boardsByPiece p .black k) sq) kindScanOrder <;>
        simp [hf] at h
    · exact ⟨by simp [h1], by simp [h2]⟩

/-- When PieceAt finds a piece, that piece's bitboard and its color's
union bitboard both claim the square. -/
theorem PieceAt_ok_some {p : Position} {sq : Nat} {pc : Piece}
    (h : PieceAt p sq = .ok (some pc)) :
    bbTest (boardsByPiece p pc.color pc.kind) sq = true
      ∧ bbTest (colorBoard p pc.color) sq = true := by
  unfold PieceAt at h
  by_cases h1 : bbTest (colorBoard p .white) sq
  · simp only [h1, if_true] at h
    cases hf : List.find? (fun k => bbTest (boardsByPiece p .white k) sq) kindScanOrder with
    | none => simp [hf] at h
    | some k =>
      simp only [hf] at h
      cases h
      exact ⟨by simpa using List.find?_some hf, h1⟩
  · by_cases h2 : bbTest (colorBoard p .black) sq
    · simp only [h1, h2, if_false, if_true] at h
      cases hf : List.find? (fun k => bbTest (boardsByPiece p .black k) sq) kindScanOrder with
      | none => simp [hf] at h
      | some k =>
        simp only [hf] at h
        cases h
        exact ⟨by simpa using List.find?_some hf, h2⟩
    · simp [h1, h2] at h

/-- Success characterization of AddPiece: the square was empty and the
result sets one bit in the piece's bitboard and its color's union. -/
theorem AddPiece_ok {p : Position} {sq : Nat} {pc : Piece} {q : Position}
    (h : AddPiece p sq pc = .ok q) :
    PieceAt p sq = .ok none
    ∧ q = setPieceBoard (setColorBoard p pc.color (bbSet (colorBoard p pc.color) sq))
        pc.color pc.kind
        (bbSet (boardsByPiece (setColorBoard p pc.color (bbSet (colorBoard p pc.color) sq))
          pc.color pc.kind) sq) := by
  unfold AddPiece at h
  cases hpa : PieceAt p sq with
  | ok o =>
    cases o with
    | none =>
      rw [hpa] at h
      cases h
      exact ⟨rfl, rfl⟩
    | some pc' => rw [hpa] at h; cases h
  | err m => rw [hpa] at h; cases h
  | panicked m => rw [hpa] at h; cases h

/-- Success characterization of RemovePiece: a piece was found and the
result clears one bit in that piece's bitboard and its color's union. -/
theorem RemovePiece_ok {p : Position} {sq : Nat} {q : Position}
    (h : RemovePiece p sq = .ok q) :
    ∃ pc, PieceAt p sq = .ok (some pc)
    ∧ q = setPieceBoard (setColorBoard p pc.color (bbUnset (colorBoard p pc.color) sq))
        pc.color pc.kind
        (bbUnset (boardsByPiece (setColorBoard p pc.color (bbUnset (colorBoard p pc.color) sq))
          pc.color pc.kind) sq) := by
  unfold RemovePiece at h
  cases hpa : PieceAt p sq with
  | ok o =>
    cases o with
    | none => rw [hpa] at h; cases h
    | some pc =>
      rw [hpa] at h
      cases h
      exact ⟨pc, rfl, rfl⟩
  | err m => rw [hpa] at h; cases h
  | panicked m => rw [hpa] at h; cases h

theorem addPieceOrPanic_ok {p : Position} {sq : Nat} {pc : Piece} {q : Position}
    (h : addPieceOrPanic p sq pc = .ok q) : AddPiece p sq pc = .ok q := by
  unfold addPieceOrPanic at h
  cases ha : AddPiece p sq pc <;> rw [ha] at h <;> first | exact h | cases h

theorem removePieceOrPanic_ok {p : Position} {sq : Nat} {q : Position}
    (h : removePieceOrPanic p sq = .ok q) : RemovePiece p sq = .ok q := by
  unfold removePieceOrPanic at h
  cases ha : RemovePiece p sq <;> rw [ha] at h <;> first | exact h | cases h

theorem pieceAtOrPanic_ok {p : Position} {sq : Nat} {pc : Piece}
    (h : pieceAtOrPanic p sq = .ok pc) : PieceAt p sq = .ok (some pc) := by
  unfold pieceAtOrPanic at h
  cases ha : PieceAt p sq with
  | ok o => cases o <;> rw [ha] at h <;> first | (cases h; rfl) | cases h
  | err m => rw [ha] at h; cases h
  | panicked m => rw [ha] at h; cases h

theorem bbTest_eq_testBit_lt {s : Nat} (hs : s < 64) (b : Nat) : bbTest b s = b.testBit s := by
  unfold bbTest
  rw [bbBit_eq_two_pow hs, Nat.and_two_pow]
  cases hbit : b.testBit s <;> simp [hbit, Nat.ne_of_gt (Nat.two_pow_pos s)]

theorem bbTest_bbSet (b sq s : Nat) :
    bbTest (bbSet b sq) s = (bbTest b s || (decide (sq < 64) && decide (sq = s))) := by
  rcases Nat.lt_or_ge s 64 with h | h
  · rw [bbTest_eq_testBit_lt h, bbTest_eq_testBit_lt h, testBit_bbSet]
  · rw [bbTest_of_ge h, bbTest_of_ge h]
    rcases Nat.decEq sq s with he | he <;> simp_all

theorem bbTest_bbUnset {b : Nat} (hb : b < two64) (sq s : Nat) :
    bbTest (bbUnset b sq) s = (bbTest b s && !(decide (sq = s))) := by
  rw [bbTest_eq_testBit (bbUnset_lt hb sq) s, bbTest_eq_testBit hb s, testBit_bbUnset hb]

theorem countP_pieceBoards (p : Position) (s : Nat) :
    (pieceBoards p).countP (fun b => bbTest b s) =
      (if bbTest p.whitePawns s then 1 else 0) + (if bbTest p.whiteKnights s then 1 else 0)
      + (if bbTest p.whiteBishops s then 1 else 0) + (if bbTest p.whiteRooks s then 1 else 0)
      + (if bbTest p.whiteQueens s then 1 else 0) + (if bbTest p.whiteKings s then 1 else 0)
      + (if bbTest p.blackPawns s then 1 else 0) + (if bbTest p.blackKnights s then 1 else 0)
      + (if bbTest p.blackBishops s then 1 else 0) + (if bbTest p.blackRooks s then 1 else 0)
      + (if bbTest p.blackQueens s then 1 else 0) + (if bbTest p.blackKings s then 1 else 0) := by
  simp only [pieceBoards, List.countP_cons, List.countP_nil]
  ring

/-- When a color's union bitboard is the OR of its six piece boards and
its bit at a square is clear, each of the six piece boards is clear
there. -/
theorem six_clear {b1 b2 b3 b4 b5 b6 u : Nat} {s : Nat}
    (hu : u = b1 ||| b2 ||| b3 ||| b4 ||| b5 ||| b6) (h : bbTest u s = false) :
    bbTest b1 s = false ∧ bbTest b2 s = false ∧ bbTest b3 s = false
    ∧ bbTest b4 s = false ∧ bbTest b5 s = false ∧ bbTest b6 s = false := by
  subst hu
  simp only [bbTest_lor, Bool.or_eq_false_iff] at h
  tauto

theorem ite_eq_toNat (b : Bool) : (if b = true then (1 : Nat) else 0) = b.toNat := by
  cases b <;> rfl

set_option maxHeartbeats 2000000 in
/-- AddPiece preserves the occupancy invariant and 64-bit board bounds. -/
theorem invariant_AddPiece {p : Position} {sq : Nat} {pc : Piece} {q : Position}
    (hI : OccupancyInvariant p) (hB : BoardsBounded p) (h : AddPiece p sq pc = .ok q) :
    OccupancyInvariant q ∧ BoardsBounded q := by
  obtain ⟨hnone, hq⟩ := AddPiece_ok h
  obtain ⟨hwu, hbu⟩ := PieceAt_ok_none hnone
  obtain ⟨hu1, hu2, hu3, hu4, hu5, hu6⟩ := six_clear hI.2.1 hwu
  obtain ⟨hv1, hv2, hv3, hv4, hv5, hv6⟩ := six_clear hI.2.2 hbu
  obtain ⟨B1, B2, B3, B4, B5, B6, B7, B8, B9, B10, B11, B12, B13, B14⟩ := hB
  obtain ⟨k, c⟩ := pc
  subst hq
  cases c
  all_goals cases k
  all_goals
    simp only [setPieceBoard, setColorBoard, boardsByPiece, colorBoard]
  case white.pawn | white.knight | white.bishop | white.rook | white.queen | white.king =>
    refine ⟨⟨fun s => ?_, ?_, hI.2.2⟩, ?_⟩
    · rw [countP_pieceBoards]
      simp only [bbTest_bbSet]
      by_cases hs : sq = s
      · subst hs
        simp [hu1, hu2, hu3, hu4, hu5, hu6, hv1, hv2, hv3, hv4, hv5, hv6]
        split <;> simp
      · have hold := hI.1 s
        rw [countP_pieceBoards] at hold
        simpa [hs] using hold
    · rw [hI.2.1]
      apply Nat.eq_of_testBit_eq
      intro i
      simp [bbSet, Nat.testBit_lor, Bool.or_assoc, Bool.or_comm, Bool.or_left_comm]
    · refine ⟨?_, ?_, ?_, ?_, ?_, ?_, ?_, ?_, ?_, ?_, ?_, ?_, ?_, ?_⟩ <;>
        first | assumption | exact bbSet_lt (by assumption) sq
  case black.pawn | black.knight | black.bishop | black.rook | black.queen | black.king =>
    refine ⟨⟨fun s => ?_, hI.2.1, ?_⟩, ?_⟩
    · rw [countP_pieceBoards]
      simp only [bbTest_bbSet]
      by_cases hs : sq = s
      · subst hs
        simp [hu1, hu2, hu3, hu4, hu5, hu6, hv1, hv2, hv3, hv4, hv5, hv6]
        split <;> simp
      · have hold := hI.1 s
        rw [countP_pieceBoards] at hold
        simpa [hs] using hold
    · rw [hI.2.2]
      apply Nat.eq_of_testBit_eq
      intro i
      simp [bbSet, Nat.testBit_lor, Bool.or_assoc, Bool.or_comm, Bool.or_left_comm]
    · refine ⟨?_, ?_, ?_, ?_, ?_, ?_, ?_, ?_, ?_, ?_, ?_, ?_, ?_, ?_⟩ <;>
        first | assumption | exact bbSet_lt (by assumption) sq

set_option maxHeartbeats 2000000 in
/-- RemovePiece preserves the occupancy invariant and 64-bit board
bounds. -/
theorem invariant_RemovePiece {p : Position} {sq : Nat} {q : Position}
    (hI : OccupancyInvariant p) (hB : BoardsBounded p) (h : RemovePiece p sq = .ok q) :
    OccupancyInvariant q ∧ BoardsBounded q := by
  obtain ⟨pc, hsome, hq⟩ := RemovePiece_ok h
  obtain ⟨hpb, hpu⟩ := PieceAt_ok_some hsome
  obtain ⟨B1, B2, B3, B4, B5, B6, B7, B8, B9, B10, B11, B12, B13, B14⟩ := hB
  have hsum := hI.1 sq
  rw [countP_pieceBoards] at hsum
  simp only [ite_eq_toNat] at hsum
  obtain ⟨k, c⟩ := pc
  subst hq
  simp only [boardsByPiece] at hpb
  simp only [colorBoard] at hpu
  cases c
  all_goals cases k
  all_goals
    simp only [setPieceBoard, setColorBoard, boardsByPiece, colorBoard]
  case white.pawn =>
    rw [hpb] at hsum
    simp only [Bool.toNat_true] at hsum
    have f2 : bbTest p.whiteKnights sq = false := by
      have : (bbTest p.whiteKnights sq).toNat = 0 := by omega
      simpa using this
    have f3 : bbTest p.whiteBishops sq = false := by
      have : (bbTest p.whiteBishops sq).toNat = 0 := by omega
      simpa using this
    have f4 : bbTest p.whiteRooks sq = false := by
      have : (bbTest p.whiteRooks sq).toNat = 0 := by omega
      simpa using this
    have f5 : bbTest p.whiteQueens sq = false := by
      have : (bbTest p.whiteQueens sq).toNat = 0 := by omega
      simpa using this
    have f6 : bbTest p.whiteKings sq = false := by
      have : (bbTest p.whiteKings sq).toNat = 0 := by omega
      simpa using this
    refine ⟨⟨fun s => ?_, ?_, hI.2.2⟩, ?_⟩
    · rw [countP_pieceBoards]
      simp only [bbTest_bbUnset B1]
      have hold := hI.1 s
      rw [countP_pieceBoards] at hold
      by_cases hs : sq = s
      · subst hs
        simp only [decide_eq_true_eq] at *
        simp [f2, f3, f4, f5, f6]
        simp only [ite_eq_toNat]
        omega
      · simp only [hs, decide_False, Bool.not_false, Bool.and_true]
        exact hold
    · rw [hI.2.1]
      apply Nat.eq_of_testBit_eq
      intro i
      rw [testBit_bbUnset (by rw [← hI.2.1]; exact B13) sq i]
      simp only [Nat.testBit_lor, testBit_bbUnset B1 sq i]
      by_cases hi : sq = i
      · subst hi
        rw [← bbTest_eq_testBit B2,
            ← bbTest_eq_testBit B3,
            ← bbTest_eq_testBit B4,
            ← bbTest_eq_testBit B5,
            ← bbTest_eq_testBit B6]
        simp [f2, f3, f4, f5, f6]
      · simp [hi]
    · refine ⟨?_, ?_, ?_, ?_, ?_, ?_, ?_, ?_, ?_, ?_, ?_, ?_, ?_, ?_⟩ <;>
        first | assumption | exact bbUnset_lt (by assumption) sq
  case white.knight =>
    rw [hpb] at hsum
    simp only [Bool.toNat_true] at hsum
    have f2 : bbTest p.whitePawns sq = false := by
      have : (bbTest p.whitePawns sq).toNat = 0 := by omega
      simpa using this
    have f3 : bbTest p.whiteBishops sq = false := by
      have : (bbTest p.whiteBishops sq).toNat = 0 := by omega
      simpa using this
    have f4 : bbTest p.whiteRooks sq = false := by
      have : (bbTest p.whiteRooks sq).toNat = 0 := by omega
      simpa using this
    have f5 : bbTest p.whiteQueens sq = false := by
      have : (bbTest p.whiteQueens sq).toNat = 0 := by omega
      simpa using this
    have f6 : bbTest p.whiteKings sq = false := by
      have : (bbTest p.whiteKings sq).toNat = 0 := by omega
      simpa using this
    refine ⟨⟨fun s => ?_, ?_, hI.2.2⟩, ?_⟩
    · rw [countP_pieceBoards]
      simp only [bbTest_bbUnset B2]
      have hold := hI.1 s
      rw [countP_pieceBoards] at hold
      by_cases hs : sq = s
      · subst hs
        simp only [decide_eq_true_eq] at *
        simp [f2, f3, f4, f5, f6]
        simp only [ite_eq_toNat]
        omega
      · simp only [hs, decide_False, Bool.not_false, Bool.and_true]
        exact hold
    · rw [hI.2.1]
      apply Nat.eq_of_testBit_eq
      intro i
      rw [testBit_bbUnset (by rw [← hI.2.1]; exact B13) sq i]
      simp only [Nat.testBit_lor, testBit_bbUnset B2 sq i]
      by_cases hi : sq = i
      · subst hi
        rw [← bbTest_eq_testBit B1,
            ← bbTest_eq_testBit B3,
            ← bbTest_eq_testBit B4,
            ← bbTest_eq_testBit B5,
            ← bbTest_eq_testBit B6]
        simp [f2, f3, f4, f5, f6]
      · simp [hi]
    · refine ⟨?_, ?_, ?_, ?_, ?_, ?_, ?_, ?_, ?_, ?_, ?_, ?_, ?_, ?_⟩ <;>
        first | assumption | exact bbUnset_lt (by assumption) sq
  case white.bishop =>
    rw [hpb] at hsum
    simp only [Bool.toNat_true] at hsum
    have f2 : bbTest p.whitePawns sq = false := by
      have : (bbTest p.whitePawns sq).toNat = 0 := by omega
      simpa using this
    have f3 : bbTest p.whiteKnights sq = false := by
      have : (bbTest p.whiteKnights sq).toNat = 0 := by omega
      simpa using this
    have f4 : bbTest p.whiteRooks sq = false := by
      have : (bbTest p.whiteRooks sq).toNat = 0 := by omega
      simpa using this
    have f5 : bbTest p.whiteQueens sq = false := by
      have : (bbTest p.whiteQueens sq).toNat = 0 := by omega
      simpa using this
    have f6 : bbTest p.whiteKings sq = false := by
      have : (bbTest p.whiteKings sq).toNat = 0 := by omega
      simpa using this
    refine ⟨⟨fun s => ?_, ?_, hI.2.2⟩, ?_⟩
    · rw [countP_pieceBoards]
      simp only [bbTest_bbUnset B3]
      have hold := hI.1 s
      rw [countP_pieceBoards] at hold
      by_cases hs : sq = s
      · subst hs
        simp only [decide_eq_true_eq] at *
        simp [f2, f3, f4, f5, f6]
        simp only [ite_eq_toNat]
        omega
      · simp only [hs, decide_False, Bool.not_false, Bool.and_true]
        exact hold
    · rw [hI.2.1]
      apply Nat.eq_of_testBit_eq
      intro i
      rw [testBit_bbUnset (by rw [← hI.2.1]; exact B13) sq i]
      simp only [Nat.testBit_lor, testBit_bbUnset B3 sq i]
      by_cases hi : sq = i
      · subst hi
        rw [← bbTest_eq_testBit B1,
            ← bbTest_eq_testBit B2,
            ← bbTest_eq_testBit B4,
            ← bbTest_eq_testBit B5,
            ← bbTest_eq_testBit B6]
        simp [f2, f3, f4, f5, f6]
      · simp [hi]
    · refine ⟨?_, ?_, ?_, ?_, ?_, ?_, ?_, ?_, ?_, ?_, ?_, ?_, ?_, ?_⟩ <;>
        first | assumption | exact bbUnset_lt (by assumption) sq
  case white.rook =>
    rw [hpb] at hsum
    simp only [Bool.toNat_true] at hsum
    have f2 : bbTest p.whitePawns sq = false := by
      have : (bbTest p.whitePawns sq).toNat = 0 := by omega
      simpa using this
    have f3 : bbTest p.whiteKnights sq = false := by
      have : (bbTest p.whiteKnights sq).toNat = 0 := by omega
      simpa using this
    have f4 : bbTest p.whiteBishops sq = false := by
      have : (bbTest p.whiteBishops sq).toNat = 0 := by omega
      simpa using this
    have f5 : bbTest p.whiteQueens sq = false := by
      have : (bbTest p.whiteQueens sq).toNat = 0 := by omega
      simpa using this
    have f6 : bbTest p.whiteKings sq = false := by
      have : (bbTest p.whiteKings sq).toNat = 0 := by omega
      simpa using this
    refine ⟨⟨fun s => ?_, ?_, hI.2.2⟩, ?_⟩
    · rw [countP_pieceBoards]
      simp only [bbTest_bbUnset B4]
      have hold := hI.1 s
      rw [countP_pieceBoards] at hold
      by_cases hs : sq = s
      · subst hs
        simp only [decide_eq_true_eq] at *
        simp [f2, f3, f4, f5, f6]
        simp only [ite_eq_toNat]
        omega
      · simp only [hs, decide_False, Bool.not_false, Bool.and_true]
        exact hold
    · rw [hI.2.1]
      apply Nat.eq_of_testBit_eq
      intro i
      rw [testBit_bbUnset (by rw [← hI.2.1]; exact B13) sq i]
      simp only [Nat.testBit_lor, testBit_bbUnset B4 sq i]
      by_cases hi : sq = i
      · subst hi
        rw [← bbTest_eq_testBit B1,
            ← bbTest_eq_testBit B2,
            ← bbTest_eq_testBit B3,
            ← bbTest_eq_testBit B5,
            ← bbTest_eq_testBit B6]
        simp [f2, f3, f4, f5, f6]
      · simp [hi]
    · refine ⟨?_, ?_, ?_, ?_, ?_, ?_, ?_, ?_, ?_, ?_, ?_, ?_, ?_, ?_⟩ <;>
        first | assumption | exact bbUnset_lt (by assumption) sq
  case white.queen =>
    rw [hpb] at hsum
    simp only [Bool.toNat_true] at hsum
    have f2 : bbTest p.whitePawns sq = false := by
      have : (bbTest p.whitePawns sq).toNat = 0 := by omega
      simpa using this
    have f3 : bbTest p.whiteKnights sq = false := by
      have : (bbTest p.whiteKnights sq).toNat = 0 := by omega
      simpa using this
    have f4 : bbTest p.whiteBishops sq = false := by
      have : (bbTest p.whiteBishops sq).toNat = 0 := by omega
      simpa using this
    have f5 : bbTest p.whiteRooks sq = false := by
      have : (bbTest p.whiteRooks sq).toNat = 0 := by omega
      simpa using this
    have f6 : bbTest p.whiteKings sq = false := by
      have : (bbTest p.whiteKings sq).toNat = 0 := by omega
      simpa using this
    refine ⟨⟨fun s => ?_, ?_, hI.2.2⟩, ?_⟩
    · rw [countP_pieceBoards]
      simp only [bbTest_bbUnset B5]
      have hold := hI.1 s
      rw [countP_pieceBoards] at hold
      by_cases hs : sq = s
      · subst hs
        simp only [decide_eq_true_eq] at *
        simp [f2, f3, f4, f5, f6]
        simp only [ite_eq_toNat]
        omega
      · simp only [hs, decide_False, Bool.not_false, Bool.and_true]
        exact hold
    · rw [hI.2.1]
      apply Nat.eq_of_testBit_eq
      intro i
      rw [testBit_bbUnset (by rw [← hI.2.1]; exact B13) sq i]
      simp only [Nat.testBit_lor, testBit_bbUnset B5 sq i]
      by_cases hi : sq = i
      · subst hi
        rw [← bbTest_eq_testBit B1,
            ← bbTest_eq_testBit B2,
            ← bbTest_eq_testBit B3,
            ← bbTest_eq_testBit B4,
            ← bbTest_eq_testBit B6]
        simp [f2, f3, f4, f5, f6]
      · simp [hi]
    · refine ⟨?_, ?_, ?_, ?_, ?_, ?_, ?_, ?_, ?_, ?_, ?_, ?_, ?_, ?_⟩ <;>
        first | assumption | exact bbUnset_lt (by assumption) sq
  case white.king =>
    rw [hpb] at hsum
    simp only [Bool.toNat_true] at hsum
    have f2 : bbTest p.whitePawns sq = false := by
      have : (bbTest p.whitePawns sq).toNat = 0 := by omega
      simpa using this
    have f3 : bbTest p.whiteKnights sq = false := by
      have : (bbTest p.whiteKnights sq).toNat = 0 := by omega
      simpa using this
    have f4 : bbTest p.whiteBishops sq = false := by
      have : (bbTest p.whiteBishops sq).toNat = 0 := by omega
      simpa using this
    have f5 : bbTest p.whiteRooks sq = false := by
      have : (bbTest p.whiteRooks sq).toNat = 0 := by omega
      simpa using this
    have f6 : bbTest p.whiteQueens sq = false := by
      have : (bbTest p.whiteQueens sq).toNat = 0 := by omega
      simpa using this
    refine ⟨⟨fun s => ?_, ?_, hI.2.2⟩, ?_⟩
    · rw [countP_pieceBoards]
      simp only [bbTest_bbUnset B6]
      have hold := hI.1 s
      rw [countP_pieceBoards] at hold
      by_cases hs : sq = s
      · subst hs
        simp only [decide_eq_true_eq] at *
        simp [f2, f3, f4, f5, f6]
        simp only [ite_eq_toNat]
        omega
      · simp only [hs, decide_False, Bool.not_false, Bool.and_true]
        exact hold
    · rw [hI.2.1]
      apply Nat.eq_of_testBit_eq
      intro i
      rw [testBit_bbUnset (by rw [← hI.2.1]; exact B13) sq i]
      simp only [Nat.testBit_lor, testBit_bbUnset B6 sq i]
      by_cases hi : sq = i
      · subst hi
        rw [← bbTest_eq_testBit B1,
            ← bbTest_eq_testBit B2,
            ← bbTest_eq_testBit B3,
            ← bbTest_eq_testBit B4,
            ← bbTest_eq_testBit B5]
        simp [f2, f3, f4, f5, f6]
      · simp [hi]
    · refine ⟨?_, ?_, ?_, ?_, ?_, ?_, ?_, ?_, ?_, ?_, ?_, ?_, ?_, ?_⟩ <;>
        first | assumption | exact bbUnset_lt (by assumption) sq
  case black.pawn =>
    rw [hpb] at hsum
    simp only [Bool.toNat_true] at hsum
    have f2 : bbTest p.blackKnights sq = false := by
      have : (bbTest p.blackKnights sq).toNat = 0 := by omega
      simpa using this
    have f3 : bbTest p.blackBishops sq = false := by
      have : (bbTest p.blackBishops sq).toNat = 0 := by omega
      simpa using this
    have f4 : bbTest p.blackRooks sq = false := by
      have : (bbTest p.blackRooks sq).toNat = 0 := by omega
      simpa using this
    have f5 : bbTest p.blackQueens sq = false := by
      have : (bbTest p.blackQueens sq).toNat = 0 := by omega
      simpa using this
    have f6 : bbTest p.blackKings sq = false := by
      have : (bbTest p.blackKings sq).toNat = 0 := by omega
      simpa using this
    refine ⟨⟨fun s => ?_, hI.2.1, ?_⟩, ?_⟩
    · rw [countP_pieceBoards]
      simp only [bbTest_bbUnset B7]
      have hold := hI.1 s
      rw [countP_pieceBoards] at hold
      by_cases hs : sq = s
      · subst hs
        simp only [decide_eq_true_eq] at *
        simp [f2, f3, f4, f5, f6]
        simp only [ite_eq_toNat]
        omega
      · simp only [hs, decide_False, Bool.not_false, Bool.and_true]
        exact hold
    · rw [hI.2.2]
      apply Nat.eq_of_testBit_eq
      intro i
      rw [testBit_bbUnset (by rw [← hI.2.2]; exact B14) sq i]
      simp only [Nat.testBit_lor, testBit_bbUnset B7 sq i]
      by_cases hi : sq = i
      · subst hi
        rw [← bbTest_eq_testBit B8,
            ← bbTest_eq_testBit B9,
            ← bbTest_eq_testBit B10,
            ← bbTest_eq_testBit B11,
            ← bbTest_eq_testBit B12]
        simp [f2, f3, f4, f5, f6]
      · simp [hi]
    · refine ⟨?_, ?_, ?_, ?_, ?_, ?_, ?_, ?_, ?_, ?_, ?_, ?_, ?_, ?_⟩ <;>
        first | assumption | exact bbUnset_lt (by assumption) sq
  case black.knight =>
    rw [hpb] at hsum
    simp only [Bool.toNat_true] at hsum
    have f2 : bbTest p.blackPawns sq = false := by
      have : (bbTest p.blackPawns sq).toNat = 0 := by omega
      simpa using this
    have f3 : bbTest p.blackBishops sq = false := by
      have : (bbTest p.blackBishops sq).toNat = 0 := by omega
      simpa using this
    have f4 : bbTest p.blackRooks sq = false := by
      have : (bbTest p.blackRooks sq).toNat = 0 := by omega
      simpa using this
    have f5 : bbTest p.blackQueens sq = false := by
      have : (bbTest p.blackQueens sq).toNat = 0 := by omega
      simpa using this
    have f6 : bbTest p.blackKings sq = false := by
      have : (bbTest p.blackKings sq).toNat = 0 := by omega
      simpa using this
    refine ⟨⟨fun s => ?_, hI.2.1, ?_⟩, ?_⟩
    · rw [countP_pieceBoards]
      simp only [bbTest_bbUnset B8]
      have hold := hI.1 s
      rw [countP_pieceBoards] at hold
      by_cases hs : sq = s
      · subst hs
        simp only [decide_eq_true_eq] at *
        simp [f2, f3, f4, f5, f6]
        simp only [ite_eq_toNat]
        omega
      · simp only [hs, decide_False, Bool.not_false, Bool.and_true]
        exact hold
    · rw [hI.2.2]
      apply Nat.eq_of_testBit_eq
      intro i
      rw [testBit_bbUnset (by rw [← hI.2.2]; exact B14) sq i]
      simp only [Nat.testBit_lor, testBit_bbUnset B8 sq i]
      by_cases hi : sq = i
      · subst hi
        rw [← bbTest_eq_testBit B7,
            ← bbTest_eq_testBit B9,
            ← bbTest_eq_testBit B10,
            ← bbTest_eq_testBit B11,
            ← bbTest_eq_testBit B12]
        simp [f2, f3, f4, f5, f6]
      · simp [hi]
    · refine ⟨?_, ?_, ?_, ?_, ?_, ?_, ?_, ?_, ?_, ?_, ?_, ?_, ?_, ?_⟩ <;>
        first | assumption | exact bbUnset_lt (by assumption) sq
  case black.bishop =>
    rw [hpb] at hsum
    simp only [Bool.toNat_true] at hsum
    have f2 : bbTest p.blackPawns sq = false := by
      have : (bbTest p.blackPawns sq).toNat = 0 := by omega
      simpa using this
    have f3 : bbTest p.blackKnights sq = false := by
      have : (bbTest p.blackKnights sq).toNat = 0 := by omega
      simpa using this
    have f4 : bbTest p.blackRooks sq = false := by
      have : (bbTest p.blackRooks sq).toNat = 0 := by omega
      simpa using this
    have f5 : bbTest p.blackQueens sq = false := by
      have : (bbTest p.blackQueens sq).toNat = 0 := by omega
      simpa using this
    have f6 : bbTest p.blackKings sq = false := by
      have : (bbTest p.blackKings sq).toNat = 0 := by omega
      simpa using this
    refine ⟨⟨fun s => ?_, hI.2.1, ?_⟩, ?_⟩
    · rw [countP_pieceBoards]
      simp only [bbTest_bbUnset B9]
      have hold := hI.1 s
      rw [countP_pieceBoards] at hold
      by_cases hs : sq = s
      · subst hs
        simp only [decide_eq_true_eq] at *
        simp [f2, f3, f4, f5, f6]
        simp only [ite_eq_toNat]
        omega
      · simp only [hs, decide_False, Bool.not_false, Bool.and_true]
        exact hold
    · rw [hI.2.2]
      apply Nat.eq_of_testBit_eq
      intro i
      rw [testBit_bbUnset (by rw [← hI.2.2]; exact B14) sq i]
      simp only [Nat.testBit_lor, testBit_bbUnset B9 sq i]
      by_cases hi : sq = i
      · subst hi
        rw [← bbTest_eq_testBit B7,
            ← bbTest_eq_testBit B8,
            ← bbTest_eq_testBit B10,
            ← bbTest_eq_testBit B11,
            ← bbTest_eq_testBit B12]
        simp [f2, f3, f4, f5, f6]
      · simp [hi]
    · refine ⟨?_, ?_, ?_, ?_, ?_, ?_, ?_, ?_, ?_, ?_, ?_, ?_, ?_, ?_⟩ <;>
        first | assumption | exact bbUnset_lt (by assumption) sq
  case black.rook =>
    rw [hpb] at hsum
    simp only [Bool.toNat_true] at hsum
    have f2 : bbTest p.blackPawns sq = false := by
      have : (bbTest p.blackPawns sq).toNat = 0 := by omega
      simpa using this
    have f3 : bbTest p.blackKnights sq = false := by
      have : (bbTest p.blackKnights sq).toNat = 0 := by omega
      simpa using this
    have f4 : bbTest p.blackBishops sq = false := by
      have : (bbTest p.blackBishops sq).toNat = 0 := by omega
      simpa using this
    have f5 : bbTest p.blackQueens sq = false := by
      have : (bbTest p.blackQueens sq).toNat = 0 := by omega
      simpa using this
    have f6 : bbTest p.blackKings sq = false := by
      have : (bbTest p.blackKings sq).toNat = 0 := by omega
      simpa using this
    refine ⟨⟨fun s => ?_, hI.2.1, ?_⟩, ?_⟩
    · rw [countP_pieceBoards]
      simp only [bbTest_bbUnset B10]
      have hold := hI.1 s
      rw [countP_pieceBoards] at hold
      by_cases hs : sq = s
      · subst hs
        simp only [decide_eq_true_eq] at *
        simp [f2, f3, f4, f5, f6]
        simp only [ite_eq_toNat]
        omega
      · simp only [hs, decide_False, Bool.not_false, Bool.and_true]
        exact hold
    · rw [hI.2.2]
      apply Nat.eq_of_testBit_eq
      intro i
      rw [testBit_bbUnset (by rw [← hI.2.2]; exact B14) sq i]
      simp only [Nat.testBit_lor, testBit_bbUnset B10 sq i]
      by_cases hi : sq = i
      · subst hi
        rw [← bbTest_eq_testBit B7,
            ← bbTest_eq_testBit B8,
            ← bbTest_eq_testBit B9,
            ← bbTest_eq_testBit B11,
            ← bbTest_eq_testBit B12]
        simp [f2, f3, f4, f5, f6]
      · simp [hi]
    · refine ⟨?_, ?_, ?_, ?_, ?_, ?_, ?_, ?_, ?_, ?_, ?_, ?_, ?_, ?_⟩ <;>
        first | assumption | exact bbUnset_lt (by assumption) sq
  case black.queen =>
    rw [hpb] at hsum
    simp only [Bool.toNat_true] at hsum
    have f2 : bbTest p.blackPawns sq = false := by
      have : (bbTest p.blackPawns sq).toNat = 0 := by omega
      simpa using this
    have f3 : bbTest p.blackKnights sq = false := by
      have : (bbTest p.blackKnights sq).toNat = 0 := by omega
      simpa using this
    have f4 : bbTest p.blackBishops sq = false := by
      have : (bbTest p.blackBishops sq).toNat = 0 := by omega
      simpa using this
    have f5 : bbTest p.blackRooks sq = false := by
      have : (bbTest p.blackRooks sq).toNat = 0 := by omega
      simpa using this
    have f6 : bbTest p.blackKings sq = false := by
      have : (bbTest p.blackKings sq).toNat = 0 := by omega
      simpa using this
    refine ⟨⟨fun s => ?_, hI.2.1, ?_⟩, ?_⟩
    · rw [countP_pieceBoards]
      simp only [bbTest_bbUnset B11]
      have hold := hI.1 s
      rw [countP_pieceBoards] at hold
      by_cases hs : sq = s
      · subst hs
        simp only [decide_eq_true_eq] at *
        simp [f2, f3, f4, f5, f6]
        simp only [ite_eq_toNat]
        omega
      · simp only [hs, decide_False, Bool.not_false, Bool.and_true]
        exact hold
    · rw [hI.2.2]
      apply Nat.eq_of_testBit_eq
      intro i
      rw [testBit_bbUnset (by rw [← hI.2.2]; exact B14) sq i]
      simp only [Nat.testBit_lor, testBit_bbUnset B11 sq i]
      by_cases hi : sq = i
      · subst hi
        rw [← bbTest_eq_testBit B7,
            ← bbTest_eq_testBit B8,
            ← bbTest_eq_testBit B9,
            ← bbTest_eq_testBit B10,
            ← bbTest_eq_testBit B12]
        simp [f2, f3, f4, f5, f6]
      · simp [hi]
    · refine ⟨?_, ?_, ?_, ?_, ?_, ?_, ?_, ?_, ?_, ?_, ?_, ?_, ?_, ?_⟩ <;>
        first | assumption | exact bbUnset_lt (by assumption) sq
  case black.king =>
    rw [hpb] at hsum
    simp only [Bool.toNat_true] at hsum
    have f2 : bbTest p.blackPawns sq = false := by
      have : (bbTest p.blackPawns sq).toNat = 0 := by omega
      simpa using this
    have f3 : bbTest p.blackKnights sq = false := by
      have : (bbTest p.blackKnights sq).toNat = 0 := by omega
      simpa using this
    have f4 : bbTest p.blackBishops sq = false := by
      have : (bbTest p.blackBishops sq).toNat = 0 := by omega
      simpa using this
    have f5 : bbTest p.blackRooks sq = false := by
      have : (bbTest p.blackRooks sq).toNat = 0 := by omega
      simpa using this
    have f6 : bbTest p.blackQueens sq = false := by
      have : (bbTest p.blackQueens sq).toNat = 0 := by omega
      simpa using this
    refine ⟨⟨fun s => ?_, hI.2.1, ?_⟩, ?_⟩
    · rw [countP_pieceBoards]
      simp only [bbTest_bbUnset B12]
      have hold := hI.1 s
      rw [countP_pieceBoards] at hold
      by_cases hs : sq = s
      · subst hs
        simp only [decide_eq_true_eq] at *
        simp [f2, f3, f4, f5, f6]
        simp only [ite_eq_toNat]
        omega
      · simp only [hs, decide_False, Bool.not_false, Bool.and_true]
        exact hold
    · rw [hI.2.2]
      apply Nat.eq_of_testBit_eq
      intro i
      rw [testBit_bbUnset (by rw [← hI.2.2]; exact B14) sq i]
      simp only [Nat.testBit_lor, testBit_bbUnset B12 sq i]
      by_cases hi : sq = i
      · subst hi
        rw [← bbTest_eq_testBit B7,
            ← bbTest_eq_testBit B8,
            ← bbTest_eq_testBit B9,
            ← bbTest_eq_testBit B10,
            ← bbTest_eq_testBit B11]
        simp [f2, f3, f4, f5, f6]
      · simp [hi]
    · refine ⟨?_, ?_, ?_, ?_, ?_, ?_, ?_, ?_, ?_, ?_, ?_, ?_, ?_, ?_⟩ <;>
        first | assumption | exact bbUnset_lt (by assumption) sq

theorem invariant_updateCastleStatus {p : Position} (mov : Nat) (pc : Piece)
    (hI : OccupancyInvariant p) (hB : BoardsBounded p) :
    OccupancyInvariant (updateCastleStatus p mov pc)
      ∧ BoardsBounded (updateCastleStatus p mov pc) := by
  obtain ⟨k, c⟩ := pc
  unfold updateCastleStatus clearCastleStatus clearKingsideCastle clearQueensideCastle
  cases k
  all_goals simp only []
  all_goals repeat' split
  all_goals exact ⟨hI, hB⟩

theorem invariant_applyCapture {p : Position} {mov : Nat} {q : Position}
    (hI : OccupancyInvariant p) (hB : BoardsBounded p) (h : applyCapture p mov = .ok q) :
    OccupancyInvariant q ∧ BoardsBounded q := by
  unfold applyCapture at h
  obtain ⟨p1, h1, h2⟩ := GoRes.bind_ok h
  obtain ⟨hI1, hB1⟩ := invariant_RemovePiece hI hB (removePieceOrPanic_ok h1)
  try simp only [] at h2
  repeat' split at h2
  all_goals cases h2
  all_goals exact ⟨hI1, hB1⟩

theorem invariant_applyCastle {p : Position} {mov : Nat} {q : Position}
    (hI : OccupancyInvariant p) (hB : BoardsBounded p) (h : applyCastle p mov = .ok q) :
    OccupancyInvariant q ∧ BoardsBounded q := by
  unfold applyCastle at h
  obtain ⟨rook, hr, h2⟩ := GoRes.bind_ok h
  try simp only [] at h2
  split at h2
  · cases h2
  · obtain ⟨p1, h3, h4⟩ := GoRes.bind_ok h2
    obtain ⟨hI1, hB1⟩ := invariant_RemovePiece hI hB (removePieceOrPanic_ok h3)
    exact invariant_AddPiece hI1 hB1 (addPieceOrPanic_ok h4)

theorem invariant_ApplyMove {p : Position} {mov : Nat} {q : Position}
    (hI : OccupancyInvariant p) (hB : BoardsBounded p) (h : ApplyMove p mov = .ok q) :
    OccupancyInvariant q ∧ BoardsBounded q := by
  unfold ApplyMove at h
  split at h
  · cases h
    exact ⟨hI, hB⟩
  · obtain ⟨movingPiece, hmp, h⟩ := GoRes.bind_ok h
    try simp only [] at h
    obtain ⟨p1, h1, h⟩ := GoRes.bind_ok h
    obtain ⟨hI1, hB1⟩ := invariant_RemovePiece hI hB (removePieceOrPanic_ok h1)
    try simp only [] at h
    obtain ⟨p2, h2, h⟩ := GoRes.bind_ok h
    have hIB2 : OccupancyInvariant p2 ∧ BoardsBounded p2 := by
      split at h2
      · exact invariant_applyCapture hI1 hB1 h2
      · cases h2
        exact ⟨hI1, hB1⟩
    try simp only [] at h
    obtain ⟨p3, h3, h⟩ := GoRes.bind_ok h
    have hIB3 : OccupancyInvariant p3 ∧ BoardsBounded p3 := by
      split at h3
      · exact invariant_applyCastle hIB2.1 hIB2.2 h3
      · cases h3
        exact hIB2
    try simp only [] at h
    obtain ⟨pieceToAdd, hpta, h⟩ := GoRes.bind_ok h
    try simp only [] at h
    obtain ⟨p4, h4, h⟩ := GoRes.bind_ok h
    obtain ⟨hI4, hB4⟩ := invariant_AddPiece hIB3.1 hIB3.2 (addPieceOrPanic_ok h4)
    try simp only [] at h
    repeat' split at h
    all_goals cases h
    all_goals first
      | exact ⟨hI4, hB4⟩
      | exact invariant_updateCastleStatus mov movingPiece hI4 hB4

theorem invariant_empty : OccupancyInvariant MakeEmptyPosition ∧ BoardsBounded MakeEmptyPosition := by
  refine ⟨⟨fun s => ?_, rfl, rfl⟩, ?_⟩
  · simp [MakeEmptyPosition, pieceBoards, bbTest, Nat.zero_and]
  · refine ⟨?_, ?_, ?_, ?_, ?_, ?_, ?_, ?_, ?_, ?_, ?_, ?_, ?_, ?_⟩ <;>
      exact Nat.two_pow_pos 64

/-- C7: every position reachable from the empty position through the
mutation operations (and hence every FEN-loaded position) satisfies the
occupancy invariant: each square is claimed by at most one piece bitboard,
and each color union bitboard is the OR of its six piece bitboards. -/
theorem c7_occupancy_invariant : ∀ p : Position, Reachable p → OccupancyInvariant p := by
  have main : ∀ p : Position, Reachable p → OccupancyInvariant p ∧ BoardsBounded p := by
    intro p h
    induction h with
    | empty => exact invariant_empty
    | add hp hstep ih => exact invariant_AddPiece ih.1 ih.2 hstep
    | remove hp hstep ih => exact invariant_RemovePiece ih.1 ih.2 hstep
    | apply hp hstep ih => exact invariant_ApplyMove ih.1 ih.2 hstep
    | scalars ep half full side castle hp ih => exact ih
  exact fun p h => (main p h).1

theorem addPieceList_reachable : ∀ (l : List (Nat × Piece)) (p q : Position),
    Reachable p → addPieceList p l = .ok q → Reachable q := by
  intro l
  induction l with
  | nil =>
    intro p q hp h
    cases h
    exact hp
  | cons hd tl ih =>
    intro p q hp h
    obtain ⟨sq, pc⟩ := hd
    unfold addPieceList at h
    obtain ⟨p1, h1, h2⟩ := GoRes.bind_ok h
    exact ih p1 q (Reachable.add hp h1) h2

theorem startPosition_reachable : Reachable startPosition := by
  have hh : addPieceList MakeEmptyPosition startPieces = .ok startBoard := rfl
  have hb : Reachable startBoard :=
    addPieceList_reachable startPieces MakeEmptyPosition startBoard Reachable.empty hh
  exact Reachable.scalars InvalidSquare 0 1 Color.white 15 hb

/-- C7 witness: the standard starting position is reachable and satisfies
the occupancy invariant. -/
theorem c7_occupancy_invariant_witness : OccupancyInvariant startPosition :=
  c7_occupancy_invariant startPosition startPosition_reachable

theorem and_mask_sub (b m : Nat) : (b &&& m) &&& b = b &&& m := by
  apply Nat.eq_of_testBit_eq
  intro i
  simp only [Nat.testBit_and]
  cases b.testBit i <;> cases m.testBit i <;> rfl

theorem and_sub_trans {a b c : Nat} (h1 : a &&& b = a) (h2 : b &&& c = b) :
    a &&& c = a := by
  apply Nat.eq_of_testBit_eq
  intro i
  have e1 := congrArg (fun n => n.testBit i) h1
  have e2 := congrArg (fun n => n.testBit i) h2
  simp only [Nat.testBit_and] at e1 e2 ⊢
  revert e1 e2
  cases a.testBit i <;> cases b.testBit i <;> cases c.testBit i <;> simp

theorem castleStatus_RemovePiece {p : Position} {sq : Nat} {q : Position}
    (h : RemovePiece p sq = .ok q) : q.castleStatus = p.castleStatus := by
  obtain ⟨pc, hsome, hq⟩ := RemovePiece_ok h
  subst hq
  rw [(setPieceBoard_scalars _ _ _ _).1, (setColorBoard_scalars _ _ _).1]

theorem castleStatus_AddPiece {p : Position} {sq : Nat} {pc : Piece} {q : Position}
    (h : AddPiece p sq pc = .ok q) : q.castleStatus = p.castleStatus := by
  obtain ⟨hnone, hq⟩ := AddPiece_ok h
  subst hq
  rw [(setPieceBoard_scalars _ _ _ _).1, (setColorBoard_scalars _ _ _).1]

theorem castleStatus_applyCapture {p : Position} {mov : Nat} {q : Position}
    (h : applyCapture p mov = .ok q) : q.castleStatus &&& p.castleStatus = q.castleStatus := by
  unfold applyCapture at h
  obtain ⟨p1, h1, h2⟩ := GoRes.bind_ok h
  have e1 : p1.castleStatus = p.castleStatus :=
    castleStatus_RemovePiece (removePieceOrPanic_ok h1)
  try simp only [] at h2
  repeat' split at h2
  all_goals cases h2
  all_goals rw [← e1]
  all_goals first
    | exact Nat.and_self _
    | exact and_mask_sub _ _
    | exact and_sub_trans (and_mask_sub _ _) (and_mask_sub _ _)

theorem castleStatus_applyCastle {p : Position} {mov : Nat} {q : Position}
    (h : applyCastle p mov = .ok q) : q.castleStatus = p.castleStatus := by
  unfold applyCastle at h
  obtain ⟨rook, hr, h2⟩ := GoRes.bind_ok h
  try simp only [] at h2
  split at h2
  · cases h2
  · obtain ⟨p1, h3, h4⟩ := GoRes.bind_ok h2
    rw [castleStatus_AddPiece (addPieceOrPanic_ok h4),
      castleStatus_RemovePiece (removePieceOrPanic_ok h3)]

theorem castleStatus_updateCastleStatus (p : Position) (mov : Nat) (pc : Piece) :
    (updateCastleStatus p mov pc).castleStatus &&& p.castleStatus
      = (updateCastleStatus p mov pc).castleStatus := by
  obtain ⟨k, c⟩ := pc
  unfold updateCastleStatus clearCastleStatus clearKingsideCastle clearQueensideCastle
  cases k
  all_goals simp only []
  all_goals repeat' split
  all_goals first
    | exact Nat.and_self _
    | exact and_mask_sub _ _
    | exact and_sub_trans (and_mask_sub _ _) (and_mask_sub _ _)

theorem castleStatus_ApplyMove {p : Position} {mov : Nat} {q : Position}
    (h : ApplyMove p mov = .ok q) : q.castleStatus &&& p.castleStatus = q.castleStatus := by
  unfold ApplyMove at h
  split at h
  · cases h
    exact Nat.and_self _
  · obtain ⟨movingPiece, hmp, h⟩ := GoRes.bind_ok h
    try simp only [] at h
    obtain ⟨p1, h1, h⟩ := GoRes.bind_ok h
    have e1 : p1.castleStatus = p.castleStatus :=
      castleStatus_RemovePiece (removePieceOrPanic_ok h1)
    try simp only [] at h
    obtain ⟨p2, h2, h⟩ := GoRes.bind_ok h
    have s2 : p2.castleStatus &&& p1.castleStatus = p2.castleStatus := by
      split at h2
      · exact castleStatus_applyCapture h2
      · cases h2
        exact Nat.and_self _
    try simp only [] at h
    obtain ⟨p3, h3, h⟩ := GoRes.bind_ok h
    have e3 : p3.castleStatus = p2.castleStatus := by
      split at h3
      · exact castleStatus_applyCastle h3
      · cases h3
        rfl
    try simp only [] at h
    obtain ⟨pieceToAdd, hpta, h⟩ := GoRes.bind_ok h
    try simp only [] at h
    obtain ⟨p4, h4, h⟩ := GoRes.bind_ok h
    have e4 : p4.castleStatus = p3.castleStatus :=
      castleStatus_AddPiece (addPieceOrPanic_ok h4)
    have s0 : p4.castleStatus &&& p.castleStatus = p4.castleStatus := by
      rw [e4, e3, ← e1]
      exact s2
    try simp only [] at h
    repeat' split at h
    all_goals cases h
    all_goals first
      | exact s0
      | exact and_sub_trans (castleStatus_updateCastleStatus _ mov movingPiece) s0

theorem castleStatus_applySeq : ∀ (moves : List Nat) (p q : Position),
    applySeq p moves = .ok q → q.castleStatus &&& p.castleStatus = q.castleStatus := by
  intro moves
  induction moves with
  | nil =>
    intro p q h
    cases h
    exact Nat.and_self _
  | cons m rest ih =>
    intro p q h
    unfold applySeq at h
    obtain ⟨p1, h1, h2⟩ := GoRes.bind_ok h
    exact and_sub_trans (ih p1 q h2) (castleStatus_ApplyMove h1)

/-- C8: castling rights are monotonically non-increasing across every
successful sequence of ApplyMove transitions: the final castleStatus is a
sub-mask of the initial one, so no flag once cleared is ever set again. -/
theorem c8_castle_rights_monotone (p : Position) (moves : List Nat) (q : Position)
    (h : applySeq p moves = .ok q) :
    q.castleStatus &&& p.castleStatus = q.castleStatus :=
  castleStatus_applySeq moves p q h

/-- C8 witness: a knight development move from the starting position. -/
theorem c8_castle_rights_monotone_witness :
    ((applySeq startPosition [MakeQuietMove 1 18]).getD MakeEmptyPosition).castleStatus
        &&& startPosition.castleStatus
      = ((applySeq startPosition [MakeQuietMove 1 18]).getD MakeEmptyPosition).castleStatus :=
  c8_castle_rights_monotone startPosition [MakeQuietMove 1 18]
    ((applySeq startPosition [MakeQuietMove 1 18]).getD MakeEmptyPosition) rfl

theorem boardsBounded_byPiece {p : Position} (hB : BoardsBounded p) (c : Color)
    (k : PieceKind) : boardsByPiece p c k < two64 := by
  obtain ⟨B1, B2, B3, B4, B5, B6, B7, B8, B9, B10, B11, B12, B13, B14⟩ := hB
  cases c <;> cases k <;> assumption

theorem unions_disjoint {p : Position} (hI : OccupancyInvariant p) (sq : Nat)
    (hw : bbTest p.whiteUnion sq = true) (hb : bbTest p.blackUnion sq = true) : False := by
  have hsum := hI.1 sq
  rw [countP_pieceBoards] at hsum
  rw [hI.2.1] at hw
  rw [hI.2.2] at hb
  simp only [bbTest_lor, Bool.or_eq_true] at hw hb
  rcases hw with ((((h1 | h1) | h1) | h1) | h1) | h1 <;>
    rcases hb with ((((h2 | h2) | h2) | h2) | h2) | h2 <;>
      rw [h1, h2] at hsum <;> simp at hsum <;> omega

theorem PieceAt_after_remove {p q : Position} {sq : Nat}
    (hI : OccupancyInvariant p) (hB : BoardsBounded p)
    (h : RemovePiece p sq = .ok q) : PieceAt q sq = .ok none := by
  obtain ⟨pc, hsome, hq⟩ := RemovePiece_ok h
  obtain ⟨hpb, hpu⟩ := PieceAt_ok_some hsome
  obtain ⟨k, c⟩ := pc
  have hW : colorBoard p .white < two64 := hB.2.2.2.2.2.2.2.2.2.2.2.2.1
  have hBk : colorBoard p .black < two64 := hB.2.2.2.2.2.2.2.2.2.2.2.2.2
  cases c
  case white =>
    have hw0 : bbTest (colorBoard q .white) sq = false := by
      have e : colorBoard q .white = bbUnset (colorBoard p .white) sq := by
        subst hq
        rw [colorBoard_setPiece, colorBoard_setColor]
        simp
      rw [e, bbTest_bbUnset hW]
      simp
    have hb0 : bbTest (colorBoard q .black) sq = false := by
      have e : colorBoard q .black = colorBoard p .black := by
        subst hq
        rw [colorBoard_setPiece, colorBoard_setColor]
        simp
      rw [e]
      cases hbt : bbTest (colorBoard p .black) sq
      · rfl
      · exact (unions_disjoint hI sq hpu hbt).elim
    unfold PieceAt
    rw [hw0, hb0]
    rfl
  case black =>
    have hb0 : bbTest (colorBoard q .black) sq = false := by
      have e : colorBoard q .black = bbUnset (colorBoard p .black) sq := by
        subst hq
        rw [colorBoard_setPiece, colorBoard_setColor]
        simp
      rw [e, bbTest_bbUnset hBk]
      simp
    have hw0 : bbTest (colorBoard q .white) sq = false := by
      have e : colorBoard q .white = colorBoard p .white := by
        subst hq
        rw [colorBoard_setPiece, colorBoard_setColor]
        simp
      rw [e]
      cases hwt : bbTest (colorBoard p .white) sq
      · rfl
      · exact (unions_disjoint hI sq hwt hpu).elim
    unfold PieceAt
    rw [hw0, hb0]
    rfl

theorem RemovePiece_other_squares {p q : Position} {sq : Nat}
    (hB : BoardsBounded p) (h : RemovePiece p sq = .ok q) :
    ∀ s, s ≠ sq → ∀ c k, bbTest (boardsByPiece q c k) s = bbTest (boardsByPiece p c k) s := by
  obtain ⟨pc, hsome, hq⟩ := RemovePiece_ok h
  intro s hs c k
  subst hq
  rw [boardsByPiece_set]
  split
  · next hck =>
    obtain ⟨hc, hk⟩ := hck
    rw [boardsByPiece_setColor,
      bbTest_bbUnset (boardsBounded_byPiece hB pc.color pc.kind)]
    rw [hc, hk]
    simp [Ne.symm hs]
  · rw [boardsByPiece_setColor]

theorem occInv_of_bounded (p : Position)
    (h64 : ∀ sq, sq < 64 → (pieceBoards p).countP (fun b => bbTest b sq) ≤ 1)
    (hw : p.whiteUnion = p.whitePawns ||| p.whiteKnights ||| p.whiteBishops |||
      p.whiteRooks ||| p.whiteQueens ||| p.whiteKings)
    (hb : p.blackUnion = p.blackPawns ||| p.blackKnights ||| p.blackBishops |||
      p.blackRooks ||| p.blackQueens ||| p.blackKings) : OccupancyInvariant p := by
  refine ⟨fun sq => ?_, hw, hb⟩
  rcases Nat.lt_or_ge sq 64 with h | h
  · exact h64 sq h
  · rw [countP_pieceBoards]
    simp [bbTest_of_ge h]

/-- C5 (amended): a successful applyCapture removes exactly one piece, at
the capture-target square: behind the en-passant target square (from the
mover's point of view) for an en-passant capture, the move's destination
square otherwise. That square was occupied before and is empty after, and
every piece bitboard is unchanged on every other square. -/
theorem c5_capture_removal_square {p : Position} {mov : Nat} {q : Position}
    (hI : OccupancyInvariant p) (hB : BoardsBounded p)
    (h : applyCapture p mov = .ok q) :
    (∃ pc, PieceAt p (captureTarget p mov) = .ok (some pc))
    ∧ PieceAt q (captureTarget p mov) = .ok none
    ∧ ∀ s, s ≠ captureTarget p mov → ∀ c k,
        bbTest (boardsByPiece q c k) s = bbTest (boardsByPiece p c k) s := by
  unfold applyCapture at h
  obtain ⟨p1, h1, h2⟩ := GoRes.bind_ok h
  have hrem : RemovePiece p (captureTarget p mov) = .ok p1 :=
    removePieceOrPanic_ok h1
  obtain ⟨pc, hsome, _⟩ := RemovePiece_ok hrem
  have hnone1 : PieceAt p1 (captureTarget p mov) = .ok none :=
    PieceAt_after_remove hI hB hrem
  have hother : ∀ s, s ≠ captureTarget p mov → ∀ c k,
      bbTest (boardsByPiece p1 c k) s = bbTest (boardsByPiece p c k) s :=
    RemovePiece_other_squares hB hrem
  try simp only [] at h2
  repeat' split at h2
  all_goals cases h2
  all_goals exact ⟨⟨pc, hsome⟩, hnone1, hother⟩

/-- C5 witness: the en-passant capture exd6 in the two-pawn en-passant
position; the capture target d5 is the black pawn's square (which here
coincides with the move's destination). -/
theorem c5_capture_removal_square_witness :
    (∃ pc, PieceAt epPosition
        (captureTarget epPosition (MakeEnPassantMove 36 35)) = .ok (some pc))
    ∧ PieceAt ((applyCapture epPosition (MakeEnPassantMove 36 35)).getD MakeEmptyPosition)
        (captureTarget epPosition (MakeEnPassantMove 36 35)) = .ok none
    ∧ ∀ s, s ≠ captureTarget epPosition (MakeEnPassantMove 36 35) → ∀ c k,
        bbTest (boardsByPiece
          ((applyCapture epPosition (MakeEnPassantMove 36 35)).getD MakeEmptyPosition) c k) s
          = bbTest (boardsByPiece epPosition c k) s :=
  c5_capture_removal_square
    (occInv_of_bounded epPosition (by decide) rfl rfl)
    (by unfold BoardsBounded; decide) rfl

theorem testBit_small {b j k : Nat} (hb : b < 2 ^ k) (hj : k ≤ j) : b.testBit j = false :=
  Nat.testBit_lt_two_pow (lt_of_lt_of_le hb (Nat.pow_le_pow_right (by norm_num) hj))

theorem tz_step {w : Nat} {f t : Nat → Nat}
    (ht : ∀ b, t b = if b &&& (2 ^ w - 1) = 0 then w + f (b >>> w) else f b)
    (hf : ∀ b, b &&& (2 ^ w - 1) ≠ 0 →
      f b < w ∧ b.testBit (f b) = true ∧ ∀ j, j < f b → b.testBit j = false) :
    ∀ b, b &&& (2 ^ (2 * w) - 1) ≠ 0 →
      t b < 2 * w ∧ b.testBit (t b) = true ∧ ∀ j, j < t b → b.testBit j = false := by
  intro b hb
  rw [Nat.and_pow_two_sub_one_eq_mod] at hb
  rw [ht]
  by_cases h0 : b &&& (2 ^ w - 1) = 0
  · rw [if_pos h0]
    rw [Nat.and_pow_two_sub_one_eq_mod] at h0
    have hhi : (b >>> w) &&& (2 ^ w - 1) ≠ 0 := by
      rw [Nat.and_pow_two_sub_one_eq_mod, Nat.shiftRight_eq_div_pow]
      intro hmod
      apply hb
      have hmm : b % (2 ^ w * 2 ^ w) = 0 := by
        rw [Nat.mod_mul, h0, hmod]
        ring
      calc b % 2 ^ (2 * w) = b % (2 ^ w * 2 ^ w) := by rw [two_mul, Nat.pow_add]
        _ = 0 := hmm
    obtain ⟨hlt, hbit, hlow⟩ := hf (b >>> w) hhi
    refine ⟨by omega, ?_, ?_⟩
    · rw [← Nat.testBit_shiftRight]
      exact hbit
    · intro j hj
      by_cases hjw : j < w
      · have he : b.testBit j = (b % 2 ^ w).testBit j := by
          rw [Nat.testBit_mod_two_pow]
          simp [hjw]
        rw [he, h0]
        simp
      · have hj2 : j - w < f (b >>> w) := by omega
        have hbt := hlow (j - w) hj2
        rw [Nat.testBit_shiftRight, show w + (j - w) = j by omega] at hbt
        exact hbt
  · rw [if_neg h0]
    obtain ⟨hlt, hbit, hlow⟩ := hf b h0
    exact ⟨by omega, hbit, hlow⟩

theorem tz1_spec : ∀ b, b &&& (2 ^ 1 - 1) ≠ 0 →
    (fun _ : Nat => 0) b < 1 ∧ b.testBit ((fun _ : Nat => 0) b) = true
      ∧ ∀ j, j < (fun _ : Nat => 0) b → b.testBit j = false := by
  intro b hb
  rw [Nat.and_pow_two_sub_one_eq_mod, pow_one] at hb
  refine ⟨Nat.one_pos, ?_, fun j hj => absurd hj (Nat.not_lt_zero j)⟩
  rw [Nat.testBit_to_div_mod]
  simp
  omega

theorem tz2_spec : ∀ b, b &&& 3 ≠ 0 →
    tz2 b < 2 ∧ b.testBit (tz2 b) = true ∧ ∀ j, j < tz2 b → b.testBit j = false :=
  tz_step (w := 1) (fun b => by simp [tz2]) tz1_spec

theorem tz4_spec : ∀ b, b &&& 15 ≠ 0 →
    tz4 b < 4 ∧ b.testBit (tz4 b) = true ∧ ∀ j, j < tz4 b → b.testBit j = false :=
  tz_step (w := 2) (fun b => by simp [tz4]) tz2_spec

theorem tz8_spec : ∀ b, b &&& 255 ≠ 0 →
    tz8 b < 8 ∧ b.testBit (tz8 b) = true ∧ ∀ j, j < tz8 b → b.testBit j = false :=
  tz_step (w := 4) (fun b => by simp [tz8]) tz4_spec

theorem tz16_spec : ∀ b, b &&& 65535 ≠ 0 →
    tz16 b < 16 ∧ b.testBit (tz16 b) = true ∧ ∀ j, j < tz16 b → b.testBit j = false :=
  tz_step (w := 8) (fun b => by simp [tz16]) tz8_spec

theorem tz32_spec : ∀ b, b &&& 4294967295 ≠ 0 →
    tz32 b < 32 ∧ b.testBit (tz32 b) = true ∧ ∀ j, j < tz32 b → b.testBit j = false :=
  tz_step (w := 16) (fun b => by simp [tz32]) tz16_spec

theorem tz64_spec : ∀ b, b ≠ 0 → b < two64 →
    tz64 b < 64 ∧ b.testBit (tz64 b) = true ∧ ∀ j, j < tz64 b → b.testBit j = false := by
  intro b hb hlt
  have hm : b &&& (2 ^ (2 * 32) - 1) ≠ 0 := by
    rw [Nat.and_pow_two_sub_one_eq_mod, Nat.mod_eq_of_lt (show b < 2 ^ (2 * 32) from hlt)]
    exact hb
  have h := tz_step (w := 32) (t := tz64) (fun b => by simp [tz64]) tz32_spec b hm
  simpa using h

theorem msb_step {w : Nat} {f t : Nat → Nat}
    (ht : ∀ b, t b = if (b >>> w) != 0 then w + f (b >>> w) else f b)
    (hf : ∀ b, b ≠ 0 → b < 2 ^ w →
      f b < w ∧ b.testBit (f b) = true ∧ ∀ j, f b < j → b.testBit j = false) :
    ∀ b, b ≠ 0 → b < 2 ^ (2 * w) →
      t b < 2 * w ∧ b.testBit (t b) = true ∧ ∀ j, t b < j → b.testBit j = false := by
  intro b hb hlt
  rw [ht]
  by_cases h0 : b >>> w = 0
  · rw [if_neg (by simp [h0])]
    have hbw : b < 2 ^ w := by
      rw [Nat.shiftRight_eq_div_pow] at h0
      by_contra hc
      have h1 : 1 ≤ b / 2 ^ w :=
        (Nat.one_le_div_iff (Nat.two_pow_pos w)).mpr (le_of_not_lt hc)
      omega
    obtain ⟨hflt, hbit, hhigh⟩ := hf b hb hbw
    exact ⟨by omega, hbit, hhigh⟩
  · rw [if_pos (by simpa using h0)]
    have hsh : b >>> w < 2 ^ w := by
      rw [Nat.shiftRight_eq_div_pow]
      apply Nat.div_lt_of_lt_mul
      rw [← Nat.pow_add, ← two_mul]
      exact hlt
    obtain ⟨hflt, hbit, hhigh⟩ := hf (b >>> w) h0 hsh
    refine ⟨by omega, ?_, ?_⟩
    · rw [← Nat.testBit_shiftRight]
      exact hbit
    · intro j hj
      by_cases hjw : j < w
      · omega
      · have hbt := hhigh (j - w) (by omega)
        rw [Nat.testBit_shiftRight, show w + (j - w) = j by omega] at hbt
        exact hbt

theorem msb1_spec : ∀ b, b ≠ 0 → b < 2 ^ 1 →
    (fun _ : Nat => 0) b < 1 ∧ b.testBit ((fun _ : Nat => 0) b) = true
      ∧ ∀ j, (fun _ : Nat => 0) b < j → b.testBit j = false := by
  intro b hb hlt
  have hb1 : b = 1 := by
    rw [pow_one] at hlt
    omega
  subst hb1
  refine ⟨Nat.one_pos, by decide, fun j hj => ?_⟩
  exact testBit_small (k := 1) (by norm_num) hj

theorem msb2_spec : ∀ b, b ≠ 0 → b < 4 →
    msb2 b < 2 ∧ b.testBit (msb2 b) = true ∧ ∀ j, msb2 b < j → b.testBit j = false :=
  msb_step (w := 1) (fun b => by simp [msb2]) msb1_spec

theorem msb4_spec : ∀ b, b ≠ 0 → b < 16 →
    msb4 b < 4 ∧ b.testBit (msb4 b) = true ∧ ∀ j, msb4 b < j → b.testBit j = false :=
  msb_step (w := 2) (fun b => by simp [msb4]) msb2_spec

theorem msb8_spec : ∀ b, b ≠ 0 → b < 256 →
    msb8 b < 8 ∧ b.testBit (msb8 b) = true ∧ ∀ j, msb8 b < j → b.testBit j = false :=
  msb_step (w := 4) (fun b => by simp [msb8]) msb4_spec

theorem msb16_spec : ∀ b, b ≠ 0 → b < 65536 →
    msb16 b < 16 ∧ b.testBit (msb16 b) = true ∧ ∀ j, msb16 b < j → b.testBit j = false :=
  msb_step (w := 8) (fun b => by simp [msb16]) msb8_spec

theorem msb32_spec : ∀ b, b ≠ 0 → b < 4294967296 →
    msb32 b < 32 ∧ b.testBit (msb32 b) = true ∧ ∀ j, msb32 b < j → b.testBit j = false :=
  msb_step (w := 16) (fun b => by simp [msb32]) msb16_spec

theorem msb64_spec : ∀ b, b ≠ 0 → b < two64 →
    msb64 b < 64 ∧ b.testBit (msb64 b) = true ∧ ∀ j, msb64 b < j → b.testBit j = false :=
  msb_step (w := 32) (fun b => by simp [msb64]) msb32_spec

theorem rayTable_lt (sq : Nat) (d : Direction) : rayTable sq d < two64 :=
  lt_of_le_of_lt Nat.and_le_right (by decide)

set_option maxRecDepth 10000 in
theorem ray_suffix_pos : ∀ d ∈ [Direction.north, Direction.northEast, Direction.east,
    Direction.northWest], ∀ sq, sq < 64 → ∀ b, b < 64 →
    bbTest (rayTable sq d) b = true →
      rayTable b d = rayTable sq d &&& (mask64 ^^^ (2 ^ (b + 1) - 1)) := by decide

set_option maxRecDepth 10000 in
theorem ray_suffix_neg : ∀ d ∈ [Direction.south, Direction.southWest, Direction.west,
    Direction.southEast], ∀ sq, sq < 64 → ∀ b, b < 64 →
    bbTest (rayTable sq d) b = true →
      rayTable b d = rayTable sq d &&& (2 ^ b - 1) := by decide

theorem xor_highmask_above {A t : Nat} (hAlt : A < two64) (ht : t < 64)
    (hAt : A.testBit t = true) :
    (A ^^^ (A &&& (mask64 ^^^ (2 ^ (t + 1) - 1)))).testBit t = true
    ∧ (∀ j, t < j → (A ^^^ (A &&& (mask64 ^^^ (2 ^ (t + 1) - 1)))).testBit j = false)
    ∧ (∀ j, j < t → (A ^^^ (A &&& (mask64 ^^^ (2 ^ (t + 1) - 1)))).testBit j = A.testBit j) := by
  have hm : ∀ j, (mask64 ^^^ (2 ^ (t + 1) - 1)).testBit j
      = (decide (j < 64) ^^ decide (j < t + 1)) := by
    intro j
    rw [show mask64 = 2 ^ 64 - 1 from rfl, Nat.testBit_xor,
      Nat.testBit_two_pow_sub_one, Nat.testBit_two_pow_sub_one]
  refine ⟨?_, ?_, ?_⟩
  · rw [Nat.testBit_xor, Nat.testBit_and, hm, hAt]
    simp [ht]
  · intro j hj
    rcases Nat.lt_or_ge j 64 with hj64 | hj64
    · rw [Nat.testBit_xor, Nat.testBit_and, hm]
      have hno : ¬ j < t + 1 := by omega
      have hmb : (decide (j < 64) ^^ decide (j < t + 1)) = true := by
        simp [hj64, hno]
      rw [hmb, Bool.and_true, Bool.xor_self]
    · have hAj : A.testBit j = false := testBit_small hAlt hj64
      rw [Nat.testBit_xor, Nat.testBit_and, hAj]
      simp
  · intro j hj
    rw [Nat.testBit_xor, Nat.testBit_and, hm]
    have ha : j < 64 := by omega
    have hb2 : j < t + 1 := by omega
    have hmb : (decide (j < 64) ^^ decide (j < t + 1)) = false := by
      simp [ha, hb2]
    rw [hmb, Bool.and_false, Bool.xor_false]

theorem xor_lowmask_below {A t : Nat} (_ht : t < 64) (hAt : A.testBit t = true) :
    (A ^^^ (A &&& (2 ^ t - 1))).testBit t = true
    ∧ (∀ j, j < t → (A ^^^ (A &&& (2 ^ t - 1))).testBit j = false)
    ∧ (∀ j, t < j → (A ^^^ (A &&& (2 ^ t - 1))).testBit j = A.testBit j) := by
  refine ⟨?_, ?_, ?_⟩
  · rw [Nat.testBit_xor, Nat.testBit_and, Nat.testBit_two_pow_sub_one, hAt]
    simp
  · intro j hj
    rw [Nat.testBit_xor, Nat.testBit_and, Nat.testBit_two_pow_sub_one]
    simp [hj]
  · intro j hj
    have hno : ¬ j < t := by omega
    rw [Nat.testBit_xor, Nat.testBit_and, Nat.testBit_two_pow_sub_one]
    simp [hno]

theorem posRes {d : Direction}
    (hd : d = .north ∨ d = .northEast ∨ d = .east ∨ d = .northWest)
    {sq occ t : Nat} (hsq : sq < 64) (hne : rayTable sq d &&& occ ≠ 0)
    (hT : t = tz64 (rayTable sq d &&& occ)) :
    t < 64
    ∧ bbTest (rayTable sq d &&& occ) t = true
    ∧ (∀ j, bbTest (rayTable sq d &&& occ) j = true → t ≤ j)
    ∧ positiveRayAttacks sq occ d = rayTable sq d ^^^ rayTable t d
    ∧ bbTest (positiveRayAttacks sq occ d) t = true
    ∧ (∀ j, t < j → bbTest (positiveRayAttacks sq occ d) j = false)
    ∧ (∀ j, j < t → bbTest (positiveRayAttacks sq occ d) j = bbTest (rayTable sq d) j) := by
  have hAlt : rayTable sq d < two64 := rayTable_lt sq d
  have hBlt : rayTable sq d &&& occ < two64 := lt_of_le_of_lt Nat.and_le_left hAlt
  obtain ⟨ht64, htbit, htlow⟩ := tz64_spec _ hne hBlt
  rw [← hT] at ht64 htbit htlow
  have hAt : (rayTable sq d).testBit t = true := by
    have h := htbit
    rw [Nat.testBit_and, Bool.and_eq_true] at h
    exact h.1
  have hsfx : rayTable t d = rayTable sq d &&& (mask64 ^^^ (2 ^ (t + 1) - 1)) := by
    rcases hd with h | h | h | h <;> subst h <;>
      exact ray_suffix_pos _ (by simp) sq hsq t ht64
        (by rw [bbTest_eq_testBit_lt ht64]; exact hAt)
  have hres : positiveRayAttacks sq occ d = rayTable sq d ^^^ rayTable t d := by
    simp only [positiveRayAttacks]
    rw [if_neg hne, hT]
  obtain ⟨hx1, hx2, hx3⟩ := xor_highmask_above hAlt ht64 hAt
  rw [← hsfx] at hx1 hx2 hx3
  refine ⟨ht64, ?_, ?_, hres, ?_, ?_, ?_⟩
  · rw [bbTest_eq_testBit_lt ht64]
    exact htbit
  · intro j hj
    rcases Nat.lt_or_ge j 64 with hj64 | hj64
    · rw [bbTest_eq_testBit_lt hj64] at hj
      by_contra hc
      rw [htlow j (by omega)] at hj
      cases hj
    · rw [bbTest_of_ge hj64] at hj
      cases hj
  · rw [bbTest_eq_testBit_lt ht64, hres]
    exact hx1
  · intro j hj
    rcases Nat.lt_or_ge j 64 with hj64 | hj64
    · rw [bbTest_eq_testBit_lt hj64, hres]
      exact hx2 j hj
    · exact bbTest_of_ge hj64
  · intro j hj
    have hj64 : j < 64 := by omega
    rw [bbTest_eq_testBit_lt hj64, bbTest_eq_testBit_lt hj64, hres]
    exact hx3 j hj

theorem negRes {d : Direction}
    (hd : d = .south ∨ d = .southWest ∨ d = .west ∨ d = .southEast)
    {sq occ t : Nat} (hsq : sq < 64) (hne : rayTable sq d &&& occ ≠ 0)
    (hT : t = msb64 (rayTable sq d &&& occ)) :
    t < 64
    ∧ bbTest (rayTable sq d &&& occ) t = true
    ∧ (∀ j, bbTest (rayTable sq d &&& occ) j = true → j ≤ t)
    ∧ negativeRayAttacks sq occ d = rayTable sq d ^^^ rayTable t d
    ∧ bbTest (negativeRayAttacks sq occ d) t = true
    ∧ (∀ j, j < t → bbTest (negativeRayAttacks sq occ d) j = false)
    ∧ (∀ j, t < j → bbTest (negativeRayAttacks sq occ d) j = bbTest (rayTable sq d) j) := by
  have hAlt : rayTable sq d < two64 := rayTable_lt sq d
  have hBlt : rayTable sq d &&& occ < two64 := lt_of_le_of_lt Nat.and_le_left hAlt
  obtain ⟨ht64, htbit, hthigh⟩ := msb64_spec _ hne hBlt
  rw [← hT] at ht64 htbit hthigh
  have hAt : (rayTable sq d).testBit t = true := by
    have h := htbit
    rw [Nat.testBit_and, Bool.and_eq_true] at h
    exact h.1
  have hsfx : rayTable t d = rayTable sq d &&& (2 ^ t - 1) := by
    rcases hd with h | h | h | h <;> subst h <;>
      exact ray_suffix_neg _ (by simp) sq hsq t ht64
        (by rw [bbTest_eq_testBit_lt ht64]; exact hAt)
  have hres : negativeRayAttacks sq occ d = rayTable sq d ^^^ rayTable t d := by
    simp only [negativeRayAttacks]
    rw [if_neg hne, hT]
  obtain ⟨hx1, hx2, hx3⟩ := xor_lowmask_below ht64 hAt
  rw [← hsfx] at hx1 hx2 hx3
  refine ⟨ht64, ?_, ?_, hres, ?_, ?_, ?_⟩
  · rw [bbTest_eq_testBit_lt ht64]
    exact htbit
  · intro j hj
    rcases Nat.lt_or_ge j 64 with hj64 | hj64
    · rw [bbTest_eq_testBit_lt hj64] at hj
      by_contra hc
      rw [hthigh j (by omega)] at hj
      cases hj
    · rw [bbTest_of_ge hj64] at hj
      cases hj
  · rw [bbTest_eq_testBit_lt ht64, hres]
    exact hx1
  · intro j hj
    have hj64 : j < 64 := by omega
    rw [bbTest_eq_testBit_lt hj64, hres]
    exact hx2 j hj
  · intro j hj
    rcases Nat.lt_or_ge j 64 with hj64 | hj64
    · rw [bbTest_eq_testBit_lt hj64, bbTest_eq_testBit_lt hj64, hres]
      exact hx3 j hj
    · rw [bbTest_of_ge hj64, bbTest_of_ge hj64]

/-- C6 (amended): slider-ray resolution intersects the precomputed ray
with occupancy; an empty intersection yields the full ray; otherwise the
first blocker is the lowest set bit of the intersection for the four
positive directions North, NorthEast, East and NorthWest and the highest
set bit for South, SouthWest, West and SouthEast, the result is the ray
XOR the blocker square's own ray, the blocker square stays included,
every ray square beyond it is excluded and every ray square before it is
kept; diagonal resolution pairs NorthWest with the positive (lowest-bit)
resolver and SouthEast with the negative (highest-bit) resolver. -/
theorem c6_ray_resolution (sq occ : Nat) (hsq : sq < 64) :
    (diagonalAttacks sq occ
        = positiveRayAttacks sq occ .northWest ||| negativeRayAttacks sq occ .southEast)
    ∧ (antidiagonalAttacks sq occ
        = positiveRayAttacks sq occ .northEast ||| negativeRayAttacks sq occ .southWest)
    ∧ (fileAttacks sq occ
        = positiveRayAttacks sq occ .north ||| negativeRayAttacks sq occ .south)
    ∧ (rankAttacks sq occ
        = positiveRayAttacks sq occ .east ||| negativeRayAttacks sq occ .west)
    ∧ (∀ d, rayTable sq d &&& occ = 0 →
        positiveRayAttacks sq occ d = rayTable sq d
        ∧ negativeRayAttacks sq occ d = rayTable sq d)
    ∧ (∀ d, (d = .north ∨ d = .northEast ∨ d = .east ∨ d = .northWest) →
        rayTable sq d &&& occ ≠ 0 →
        bbTest (rayTable sq d &&& occ) (tz64 (rayTable sq d &&& occ)) = true
        ∧ (∀ j, bbTest (rayTable sq d &&& occ) j = true → tz64 (rayTable sq d &&& occ) ≤ j)
        ∧ positiveRayAttacks sq occ d
            = rayTable sq d ^^^ rayTable (tz64 (rayTable sq d &&& occ)) d
        ∧ bbTest (positiveRayAttacks sq occ d) (tz64 (rayTable sq d &&& occ)) = true
        ∧ (∀ j, tz64 (rayTable sq d &&& occ) < j →
            bbTest (positiveRayAttacks sq occ d) j = false)
        ∧ (∀ j, j < tz64 (rayTable sq d &&& occ) →
            bbTest (positiveRayAttacks sq occ d) j = bbTest (rayTable sq d) j))
    ∧ (∀ d, (d = .south ∨ d = .southWest ∨ d = .west ∨ d = .southEast) →
        rayTable sq d &&& occ ≠ 0 →
        bbTest (rayTable sq d &&& occ) (msb64 (rayTable sq d &&& occ)) = true
        ∧ (∀ j, bbTest (rayTable sq d &&& occ) j = true → j ≤ msb64 (rayTable sq d &&& occ))
        ∧ negativeRayAttacks sq occ d
            = rayTable sq d ^^^ rayTable (msb64 (rayTable sq d &&& occ)) d
        ∧ bbTest (negativeRayAttacks sq occ d) (msb64 (rayTable sq d &&& occ)) = true
        ∧ (∀ j, j < msb64 (rayTable sq d &&& occ) →
            bbTest (negativeRayAttacks sq occ d) j = false)
        ∧ (∀ j, msb64 (rayTable sq d &&& occ) < j →
            bbTest (negativeRayAttacks sq occ d) j = bbTest (rayTable sq d) j)) := by
  refine ⟨rfl, rfl, rfl, rfl, ?_, ?_, ?_⟩
  · intro d h0
    constructor
    · simp [positiveRayAttacks, h0]
    · simp [negativeRayAttacks, h0]
  · intro d hd hne
    obtain ⟨_, h2, h3, h4, h5, h6, h7⟩ := posRes hd hsq hne rfl
    exact ⟨h2, h3, h4, h5, h6, h7⟩
  · intro d hd hne
    obtain ⟨_, h2, h3, h4, h5, h6, h7⟩ := negRes hd hsq hne rfl
    exact ⟨h2, h3, h4, h5, h6, h7⟩

/-- C6 witness: the NorthWest ray from d4 blocked at b6 resolves through
the positive (lowest-set-bit) resolver and keeps the blocker square
included. -/
theorem c6_ray_resolution_witness :
    bbTest (positiveRayAttacks 27 (bbBit 41) Direction.northWest)
        (tz64 (rayTable 27 Direction.northWest &&& bbBit 41)) = true :=
  ((c6_ray_resolution 27 (bbBit 41) (by decide)).2.2.2.2.2.1 Direction.northWest
      (Or.inr (Or.inr (Or.inr rfl))) (by decide)).2.2.2.1

end Apollo
